import Mathlib

/-!
Verification development for the BetTrack sports-data adapter repository.

The Python source is shallowly embedded: Python values (results of JSON
decoding and the dictionaries the handlers build) become the inductive
type `PyVal`; operations that can raise in Python return `Except PErr`;
pure Python functions become plain Lean functions.  The handlers'
mutable state (`OddsAPIHandler.current_key_index`) is passed explicitly.
-/

/-- A Python/JSON value as handled by the adapters: `None`, booleans,
integers, strings, lists and (insertion-ordered) string-keyed dicts. -/
inductive PyVal where
  | none : PyVal
  | bool : Bool → PyVal
  | int : Int → PyVal
  | str : String → PyVal
  | list : List PyVal → PyVal
  | dict : List (String × PyVal) → PyVal
deriving Repr

mutual

/-- Decidable equality for `PyVal` (the nested inductive defeats the
automatic derivation). -/
def PyVal.decEq : (a b : PyVal) → Decidable (a = b)
  | .none, .none => .isTrue rfl
  | .bool x, .bool y =>
      if h : x = y then .isTrue (by rw [h]) else .isFalse (fun hh => h (by cases hh; rfl))
  | .int x, .int y =>
      if h : x = y then .isTrue (by rw [h]) else .isFalse (fun hh => h (by cases hh; rfl))
  | .str x, .str y =>
      if h : x = y then .isTrue (by rw [h]) else .isFalse (fun hh => h (by cases hh; rfl))
  | .list x, .list y =>
      match PyVal.decEqList x y with
      | .isTrue h => .isTrue (by rw [h])
      | .isFalse h => .isFalse (fun hh => h (by cases hh; rfl))
  | .dict x, .dict y =>
      match PyVal.decEqDict x y with
      | .isTrue h => .isTrue (by rw [h])
      | .isFalse h => .isFalse (fun hh => h (by cases hh; rfl))
  | .none, .bool _ => .isFalse (fun h => PyVal.noConfusion h)
  | .none, .int _ => .isFalse (fun h => PyVal.noConfusion h)
  | .none, .str _ => .isFalse (fun h => PyVal.noConfusion h)
  | .none, .list _ => .isFalse (fun h => PyVal.noConfusion h)
  | .none, .dict _ => .isFalse (fun h => PyVal.noConfusion h)
  | .bool _, .none => .isFalse (fun h => PyVal.noConfusion h)
  | .bool _, .int _ => .isFalse (fun h => PyVal.noConfusion h)
  | .bool _, .str _ => .isFalse (fun h => PyVal.noConfusion h)
  | .bool _, .list _ => .isFalse (fun h => PyVal.noConfusion h)
  | .bool _, .dict _ => .isFalse (fun h => PyVal.noConfusion h)
  | .int _, .none => .isFalse (fun h => PyVal.noConfusion h)
  | .int _, .bool _ => .isFalse (fun h => PyVal.noConfusion h)
  | .int _, .str _ => .isFalse (fun h => PyVal.noConfusion h)
  | .int _, .list _ => .isFalse (fun h => PyVal.noConfusion h)
  | .int _, .dict _ => .isFalse (fun h => PyVal.noConfusion h)
  | .str _, .none => .isFalse (fun h => PyVal.noConfusion h)
  | .str _, .bool _ => .isFalse (fun h => PyVal.noConfusion h)
  | .str _, .int _ => .isFalse (fun h => PyVal.noConfusion h)
  | .str _, .list _ => .isFalse (fun h => PyVal.noConfusion h)
  | .str _, .dict _ => .isFalse (fun h => PyVal.noConfusion h)
  | .list _, .none => .isFalse (fun h => PyVal.noConfusion h)
  | .list _, .bool _ => .isFalse (fun h => PyVal.noConfusion h)
  | .list _, .int _ => .isFalse (fun h => PyVal.noConfusion h)
  | .list _, .str _ => .isFalse (fun h => PyVal.noConfusion h)
  | .list _, .dict _ => .isFalse (fun h => PyVal.noConfusion h)
  | .dict _, .none => .isFalse (fun h => PyVal.noConfusion h)
  | .dict _, .bool _ => .isFalse (fun h => PyVal.noConfusion h)
  | .dict _, .int _ => .isFalse (fun h => PyVal.noConfusion h)
  | .dict _, .str _ => .isFalse (fun h => PyVal.noConfusion h)
  | .dict _, .list _ => .isFalse (fun h => PyVal.noConfusion h)

/-- Decidable equality on lists of `PyVal`. -/
def PyVal.decEqList : (a b : List PyVal) → Decidable (a = b)
  | [], [] => .isTrue rfl
  | [], _ :: _ => .isFalse (fun h => List.noConfusion h)
  | _ :: _, [] => .isFalse (fun h => List.noConfusion h)
  | a :: as, b :: bs =>
      match PyVal.decEq a b with
      | .isFalse h => .isFalse (fun hh => h (by cases hh; rfl))
      | .isTrue h1 =>
          match PyVal.decEqList as bs with
          | .isTrue h2 => .isTrue (by rw [h1, h2])
          | .isFalse h2 => .isFalse (fun hh => h2 (by cases hh; rfl))

/-- Decidable equality on dict entry lists. -/
def PyVal.decEqDict : (a b : List (String × PyVal)) → Decidable (a = b)
  | [], [] => .isTrue rfl
  | [], _ :: _ => .isFalse (fun h => List.noConfusion h)
  | _ :: _, [] => .isFalse (fun h => List.noConfusion h)
  | (k, v) :: as, (k', v') :: bs =>
      if hk : k = k' then
        match PyVal.decEq v v' with
        | .isFalse h => .isFalse (fun hh => h (by cases hh; rfl))
        | .isTrue h1 =>
            match PyVal.decEqDict as bs with
            | .isTrue h2 => .isTrue (by rw [hk, h1, h2])
            | .isFalse h2 => .isFalse (fun hh => h2 (by cases hh; rfl))
      else .isFalse (fun hh => hk (by cases hh; rfl))

end

instance : DecidableEq PyVal := PyVal.decEq

instance : BEq PyVal := instBEqOfDecidableEq

/-- Python exception classes raised by the embedded operations. -/
inductive PErr where
  | typeError
  | attrError
  | indexError
  | keyError
deriving DecidableEq, Repr

/-- Python truthiness (`bool(x)`): falsy values are `None`, `False`,
`0`, `""`, `[]` and `{}`. -/
def truthy : PyVal → Bool
  | .none => false
  | .bool b => b
  | .int n => n != 0
  | .str s => !s.isEmpty
  | .list l => !l.isEmpty
  | .dict d => !d.isEmpty

/-- First value bound to key `k` in an association list (Python dicts
have unique keys; the embedding reads the first binding). -/
def alistLookup (d : List (String × PyVal)) (k : String) : Option PyVal :=
  match d with
  | [] => Option.none
  | (k', v) :: rest => if k' = k then Option.some v else alistLookup rest k

/-- `d[k] = v` on a dict: replace the binding if the key is present
(keeping its position, as Python dicts do), else append it. -/
def alistSet (d : List (String × PyVal)) (k : String) (v : PyVal) : List (String × PyVal) :=
  match d with
  | [] => [(k, v)]
  | (k', v') :: rest =>
      if k' = k then (k, v) :: rest else (k', v') :: alistSet rest k v

/-- Python `x.get(k, dflt)`: raises `AttributeError` unless `x` is a dict. -/
def pyGetD (v : PyVal) (k : String) (dflt : PyVal) : Except PErr PyVal :=
  match v with
  | .dict d => .ok ((alistLookup d k).getD dflt)
  | _ => .error .attrError

/-- Python `x.get(k)` (default `None`). -/
def pyGet (v : PyVal) (k : String) : Except PErr PyVal :=
  pyGetD v k .none

/-- Python `x[k]` subscription with a string key: only dicts support it
here, raising `KeyError` when the key is absent. -/
def pySubscript (v : PyVal) (k : String) : Except PErr PyVal :=
  match v with
  | .dict d =>
      match alistLookup d k with
      | Option.some x => .ok x
      | Option.none => .error .keyError
  | _ => .error .typeError

/-- A value that must be a `str` (Python raises `TypeError` or
`AttributeError` at the first string operation otherwise). -/
def asStr : PyVal → Except PErr String
  | .str s => .ok s
  | _ => .error .typeError

/-- A value that must be a dict. -/
def asDict : PyVal → Except PErr (List (String × PyVal))
  | .dict d => .ok d
  | _ => .error .typeError

/-- Python iteration `for x in v`: lists yield their elements, strings
their characters, dicts their keys; other values are not iterable. -/
def pyIter : PyVal → Except PErr (List PyVal)
  | .list l => .ok l
  | .str s => .ok (s.data.map fun c => .str (String.mk [c]))
  | .dict d => .ok (d.map fun p => .str p.1)
  | _ => .error .typeError

/-- `needle` is a prefix of `hay` (on character lists). -/
def charsPre : List Char → List Char → Bool
  | [], _ => true
  | _ :: _, [] => false
  | a :: as, b :: bs => a == b && charsPre as bs

/-- `needle` occurs as a contiguous run inside `hay`. -/
def charsIn (needle : List Char) : List Char → Bool
  | [] => needle.isEmpty
  | c :: cs => charsPre needle (c :: cs) || charsIn needle cs

/-- Python `needle in hay` on strings (substring containment). -/
def pyInStr (needle hay : String) : Bool :=
  charsIn needle.data hay.data

/-- Python `s.lower()` (character-wise, which agrees with Python on the
ASCII data this repository handles). -/
def pyLower (s : String) : String :=
  String.mk (s.data.map Char.toLower)

/-- Python `k in v`: substring test on strings, membership on lists,
key membership on dicts; raises `TypeError` on non-containers. -/
def pyContains (k : PyVal) (v : PyVal) : Except PErr Bool :=
  match v with
  | .str s =>
      match k with
      | .str ks => .ok (pyInStr ks s)
      | _ => .error .typeError
  | .list l => .ok (l.contains k)
  | .dict d =>
      match k with
      | .str ks => .ok ((alistLookup d ks).isSome)
      | _ => .ok false
  | _ => .error .typeError

/-! ## Odds API handler (`src/mcp/sports_api/odds_api_handler.py`) -/

/-- The constructor argument `api_key: Union[str, List[str]]`. -/
inductive ApiKeyArg where
  | single (key : String)
  | multi (keys : List String)

/-- State and configuration of `OddsAPIHandler` (the HTTP session is
external and carries no logic, so it is not modelled). -/
structure OddsAPIHandler where
  api_keys : List String
  current_key_index : Nat
  bookmakers_filter : Option (List String)
  bookmakers_limit : Int
deriving DecidableEq, Repr

/-- `OddsAPIHandler.__init__`: a single key is wrapped into a
one-element list, the rotation index starts at 0, and the bookmaker
filter is lowercased (an empty or missing filter becomes `None`). -/
def OddsAPIHandler.init (api_key : ApiKeyArg) (bookmakers_filter : Option (List String) := Option.none)
    (bookmakers_limit : Int := 5) : OddsAPIHandler :=
  { api_keys :=
      match api_key with
      | .single s => [s]
      | .multi l => l
    current_key_index := 0
    bookmakers_filter :=
      match bookmakers_filter with
      | Option.some l => if l.isEmpty then Option.none else Option.some (l.map pyLower)
      | Option.none => Option.none
    bookmakers_limit := bookmakers_limit }

/-- `OddsAPIHandler._get_next_api_key`: returns the key at the current
index and advances the index modulo the number of keys.  `Option.none`
models the `IndexError`/`ZeroDivisionError` raised when the key list
does not cover the current index. -/
def OddsAPIHandler.get_next_api_key (h : OddsAPIHandler) : Option (String × OddsAPIHandler) :=
  match h.api_keys.get? h.current_key_index with
  | Option.none => Option.none
  | Option.some key =>
      Option.some (key, { h with current_key_index := (h.current_key_index + 1) % h.api_keys.length })

/-- `n` consecutive calls to `_get_next_api_key`, collecting the keys
they return together with the final handler state. -/
def OddsAPIHandler.runKeys : OddsAPIHandler → Nat → Option (List String × OddsAPIHandler)
  | h, 0 => Option.some ([], h)
  | h, n + 1 =>
      match h.get_next_api_key with
      | Option.none => Option.none
      | Option.some (k, h') =>
          match h'.runKeys n with
          | Option.none => Option.none
          | Option.some (ks, h'') => Option.some (k :: ks, h'')

/-- Python list slicing `l[:n]` with a possibly negative bound. -/
def pySliceTo (l : List PyVal) (n : Int) : List PyVal :=
  if 0 ≤ n then l.take n.toNat else l.take (l.length - (-n).toNat)

/-- `bm.get("key", "").lower()` for one bookmaker entry. -/
def bmKeyLower (bm : PyVal) : Except PErr String := do
  let k ← pyGetD bm "key" (.str "")
  let s ← asStr k
  pure (pyLower s)

/-- The allow-list comprehension
`[bm for bm in bookmakers if bm.get("key", "").lower() in self.bookmakers_filter]`. -/
def filterStep (flt : List String) : List PyVal → Except PErr (List PyVal)
  | [] => .ok []
  | bm :: rest => do
      let k ← bmKeyLower bm
      let tail ← filterStep flt rest
      pure (if flt.contains k then bm :: tail else tail)

/-- The allow-list phase of the per-game body of `_filter_bookmakers`:
the `if self.bookmakers_filter:` block (a falsy filter skips it). -/
def allowPhase (flt : Option (List String)) (bs : List PyVal) : Except PErr (List PyVal) :=
  match flt with
  | Option.some fl => if fl.isEmpty then pure bs else filterStep fl bs
  | Option.none => pure bs

/-- The cap phase: `bookmakers[:limit]` when the limit is truthy. -/
def capPhase (lim : Int) (bs : List PyVal) : List PyVal :=
  if lim != 0 then pySliceTo bs lim else bs

/-- The whole per-game body: allow-list phase, then cap phase. -/
def filterGameBms (flt : Option (List String)) (lim : Int) (bs : List PyVal) :
    Except PErr (List PyVal) := do
  let bs1 ← allowPhase flt bs
  pure (capPhase lim bs1)

/-- The `for game in games` traversal: each game is transformed in
order, the first exception aborting the loop (as in Python). -/
def mapGames (f : PyVal → Except PErr PyVal) : List PyVal → Except PErr (List PyVal)
  | [] => .ok []
  | g :: gs => do
      let g2 ← f g
      let gs2 ← mapGames f gs
      pure (g2 :: gs2)

/-- `x[k] = v` item assignment (dicts only). -/
def pySetItem (v : PyVal) (k : String) (x : PyVal) : Except PErr PyVal :=
  match v with
  | .dict d => .ok (.dict (alistSet d k x))
  | _ => .error .typeError

/-- One iteration of the `for game in games` loop of
`_filter_bookmakers`: when `"bookmakers" in game` holds and the field
is a list, it is filtered and capped; otherwise the game is kept as
is. -/
def gameStep (flt : Option (List String)) (lim : Int) (game : PyVal) : Except PErr PyVal := do
  let c ← pyContains (.str "bookmakers") game
  if c then do
    let bv ← pySubscript game "bookmakers"
    match bv with
    | .list bs => do
        let bs' ← filterGameBms flt lim bs
        pySetItem game "bookmakers" (.list bs')
    | _ => pure game
  else pure game

/-- `OddsAPIHandler._filter_bookmakers`: data that is not a dict with a
`"data"` list is returned unchanged; otherwise every game in the list
goes through `gameStep` and the `"data"` entry is replaced by the
resulting list (the Python code mutates the games in place). -/
def filter_bookmakers (flt : Option (List String)) (lim : Int) (data : PyVal) :
    Except PErr PyVal :=
  match data with
  | .dict d =>
      if (alistLookup d "data").isSome then
        match (alistLookup d "data").getD (.list []) with
        | .list games => do
            let games2 ← mapGames (gameStep flt lim) games
            pure (.dict (alistSet d "data" (.list games2)))
        | _ => .ok data
      else .ok data
  | _ => .ok data

/-- `get_scores` builds the endpoint path and query parameters, with
`daysFrom` clamped by `min(days_from, 3)` (both copies of the handler
do the same). -/
def getScoresRequest (sport : String) (days_from : Int) : String × List (String × Int) :=
  ("/v4/sports/" ++ sport ++ "/scores", [("daysFrom", min days_from 3)])

/-- Everything `_make_request` observes about the outbound HTTP call:
either a response (status, JSON-decoded body or decoding failure, raw
text body, usage headers) or a raised transport exception. -/
structure HttpResponse where
  status : Nat
  jsonBody : Except String PyVal
  textBody : String
  remaining : Option String
  used : Option String

/-- Outcome of `session.get(...)`. -/
inductive CallOutcome where
  | response (r : HttpResponse)
  | raised (msg : String)

/-- Conversion of an optional header value into the dict entry
`_make_request` stores. -/
def optStr : Option String → PyVal
  | Option.some s => .str s
  | Option.none => .none

/-- `OddsAPIHandler._make_request` after the HTTP call resolved: a 200
response with a decodable body yields a success dict with the data and
the usage headers; any other status yields a failure dict with the
status in the error message and the raw text as details; an exception
(transport failure or body-decoding failure, both inside the `try`)
yields a failure dict with the stringified exception. -/
def make_request (outcome : CallOutcome) : PyVal :=
  match outcome with
  | .raised msg => .dict [("success", .bool false), ("error", .str msg)]
  | .response r =>
      if r.status = 200 then
        match r.jsonBody with
        | .ok data =>
            .dict [("success", .bool true), ("data", data),
                   ("usage", .dict [("remaining", optStr r.remaining), ("used", optStr r.used)])]
        | .error msg => .dict [("success", .bool false), ("error", .str msg)]
      else
        .dict [("success", .bool false),
               ("error", .str ("API returned status " ++ toString r.status)),
               ("details", .str r.textBody)]

/-- `ESPNAPIHandler._make_request`: same shape without the usage
headers. -/
def espn_make_request (outcome : CallOutcome) : PyVal :=
  match outcome with
  | .raised msg => .dict [("success", .bool false), ("error", .str msg)]
  | .response r =>
      if r.status = 200 then
        match r.jsonBody with
        | .ok data => .dict [("success", .bool true), ("data", data)]
        | .error msg => .dict [("success", .bool false), ("error", .str msg)]
      else
        .dict [("success", .bool false),
               ("error", .str ("API returned status " ++ toString r.status)),
               ("details", .str r.textBody)]

/-- The tail of `get_odds`: the `_make_request` result is run through
`_filter_bookmakers` only when its `success` entry is truthy. -/
def get_odds_result (flt : Option (List String)) (lim : Int) (outcome : CallOutcome) :
    Except PErr PyVal := do
  let result := make_request outcome
  let s ← pyGet result "success"
  if truthy s then filter_bookmakers flt lim result else pure result

/-- The sports probed by `search_odds` when no sport filter is given. -/
def popularSports : List String :=
  ["americanfootball_nfl", "basketball_nba", "baseball_mlb", "icehockey_nhl"]

/-- The inner `for game in odds_result["data"]` loop of `search_odds`:
a game whose lowercased home or away team name contains the lowercased
query is retained as `{"sport": sport_key, **game}`. -/
def matchGames (queryLower sportKey : String) : List PyVal → Except PErr (List PyVal)
  | [] => .ok []
  | game :: rest => do
      let hv ← pyGetD game "home_team" (.str "")
      let hs ← asStr hv
      let av ← pyGetD game "away_team" (.str "")
      let avs ← asStr av
      let tail ← matchGames queryLower sportKey rest
      if pyInStr queryLower (pyLower hs) || pyInStr queryLower (pyLower avs) then do
        let gd ← asDict game
        pure (.dict (gd.foldl (fun acc p => alistSet acc p.1 p.2) [("sport", .str sportKey)]) :: tail)
      else pure tail

/-- The `for sport_key in sports_to_check` loop of `search_odds`:
`fetch` gives the value each underlying `get_odds` call returned; only
results with truthy `success` and truthy `data` contribute matches. -/
def searchLoop (fetch : String → PyVal) (queryLower : String) :
    List String → Except PErr (List PyVal)
  | [] => .ok []
  | sk :: rest => do
      let r := fetch sk
      let s ← pyGet r "success"
      let m ←
        if truthy s then do
          let dv ← pyGet r "data"
          if truthy dv then do
            let dv2 ← pySubscript r "data"
            let games ← pyIter dv2
            matchGames queryLower sk games
          else pure []
        else pure ([] : List PyVal)
      let tail ← searchLoop fetch queryLower rest
      pure (m ++ tail)

/-- `OddsAPIHandler.search_odds`: probes the requested sport (or the
four popular sports), collects matching games, and returns a dict whose
`success` entry is the literal `True` regardless of the underlying
`get_odds` outcomes. -/
def search_odds (fetch : String → PyVal) (query : String) (sport : Option String) :
    Except PErr PyVal := do
  let sports_to_check :=
    match sport with
    | Option.some s => [s]
    | Option.none => popularSports
  let matching ← searchLoop fetch (pyLower query) sports_to_check
  pure (.dict [("success", .bool true), ("query", .str query),
               ("matching_games", .list matching), ("count", .int matching.length)])

/-- The `search_odds` tool of `sports_mcp_server.py`: when the handler
is configured it returns the handler's `search_odds` result unchanged
(a single call, no retry); otherwise a configuration-error dict. -/
def tool_search_odds (configured : Bool) (fetch : String → PyVal) (query : String)
    (sport : Option String) : Except PErr PyVal :=
  if configured then search_odds fetch query sport
  else .ok (.dict [("error",
    .str "Odds API not configured. Please set ODDS_API_KEY environment variable.")])

/-! ## Team reference tables (`src/sports_api/team_reference.py`) -/

/-- The `id`/`abbr`/`division` record stored per team. -/
structure TeamInfo where
  id : String
  abbr : String
  division : String
deriving DecidableEq, Repr

/-- The record `find_team_id` returns: `{"name": name, **info}`. -/
structure TeamRecord where
  name : String
  id : String
  abbr : String
  division : String
deriving DecidableEq, Repr

/-- `NFL_TEAMS`, in source (insertion) order. -/
def NFL_TEAMS : List (String × TeamInfo) :=
  [("Arizona Cardinals", ⟨"22", "ARI", "NFC West"⟩),
   ("Atlanta Falcons", ⟨"1", "ATL", "NFC South"⟩),
   ("Baltimore Ravens", ⟨"33", "BAL", "AFC North"⟩),
   ("Buffalo Bills", ⟨"2", "BUF", "AFC East"⟩),
   ("Carolina Panthers", ⟨"29", "CAR", "NFC South"⟩),
   ("Chicago Bears", ⟨"3", "CHI", "NFC North"⟩),
   ("Cincinnati Bengals", ⟨"4", "CIN", "AFC North"⟩),
   ("Cleveland Browns", ⟨"5", "CLE", "AFC North"⟩),
   ("Dallas Cowboys", ⟨"6", "DAL", "NFC East"⟩),
   ("Denver Broncos", ⟨"7", "DEN", "AFC West"⟩),
   ("Detroit Lions", ⟨"8", "DET", "NFC North"⟩),
   ("Green Bay Packers", ⟨"9", "GB", "NFC North"⟩),
   ("Houston Texans", ⟨"34", "HOU", "AFC South"⟩),
   ("Indianapolis Colts", ⟨"11", "IND", "AFC South"⟩),
   ("Jacksonville Jaguars", ⟨"30", "JAX", "AFC South"⟩),
   ("Kansas City Chiefs", ⟨"12", "KC", "AFC West"⟩),
   ("Las Vegas Raiders", ⟨"13", "LV", "AFC West"⟩),
   ("Los Angeles Chargers", ⟨"24", "LAC", "AFC West"⟩),
   ("Los Angeles Rams", ⟨"14", "LAR", "NFC West"⟩),
   ("Miami Dolphins", ⟨"15", "MIA", "AFC East"⟩),
   ("Minnesota Vikings", ⟨"16", "MIN", "NFC North"⟩),
   ("New England Patriots", ⟨"17", "NE", "AFC East"⟩),
   ("New Orleans Saints", ⟨"18", "NO", "NFC South"⟩),
   ("New York Giants", ⟨"19", "NYG", "NFC East"⟩),
   ("New York Jets", ⟨"20", "NYJ", "AFC East"⟩),
   ("Philadelphia Eagles", ⟨"21", "PHI", "NFC East"⟩),
   ("Pittsburgh Steelers", ⟨"23", "PIT", "AFC North"⟩),
   ("San Francisco 49ers", ⟨"25", "SF", "NFC West"⟩),
   ("Seattle Seahawks", ⟨"26", "SEA", "NFC West"⟩),
   ("Tampa Bay Buccaneers", ⟨"27", "TB", "NFC South"⟩),
   ("Tennessee Titans", ⟨"10", "TEN", "AFC South"⟩),
   ("Washington Commanders", ⟨"28", "WAS", "NFC East"⟩)]

/-- `NBA_TEAMS`, in source order. -/
def NBA_TEAMS : List (String × TeamInfo) :=
  [("Atlanta Hawks", ⟨"1", "ATL", "Southeast"⟩),
   ("Boston Celtics", ⟨"2", "BOS", "Atlantic"⟩),
   ("Brooklyn Nets", ⟨"17", "BKN", "Atlantic"⟩),
   ("Charlotte Hornets", ⟨"30", "CHA", "Southeast"⟩),
   ("Chicago Bulls", ⟨"4", "CHI", "Central"⟩),
   ("Cleveland Cavaliers", ⟨"5", "CLE", "Central"⟩),
   ("Dallas Mavericks", ⟨"6", "DAL", "Southwest"⟩),
   ("Denver Nuggets", ⟨"7", "DEN", "Northwest"⟩),
   ("Detroit Pistons", ⟨"8", "DET", "Central"⟩),
   ("Golden State Warriors", ⟨"9", "GSW", "Pacific"⟩),
   ("Houston Rockets", ⟨"10", "HOU", "Southwest"⟩),
   ("Indiana Pacers", ⟨"11", "IND", "Central"⟩),
   ("LA Clippers", ⟨"12", "LAC", "Pacific"⟩),
   ("Los Angeles Lakers", ⟨"13", "LAL", "Pacific"⟩),
   ("Memphis Grizzlies", ⟨"29", "MEM", "Southwest"⟩),
   ("Miami Heat", ⟨"14", "MIA", "Southeast"⟩),
   ("Milwaukee Bucks", ⟨"15", "MIL", "Central"⟩),
   ("Minnesota Timberwolves", ⟨"16", "MIN", "Northwest"⟩),
   ("New Orleans Pelicans", ⟨"3", "NOP", "Southwest"⟩),
   ("New York Knicks", ⟨"18", "NYK", "Atlantic"⟩),
   ("Oklahoma City Thunder", ⟨"25", "OKC", "Northwest"⟩),
   ("Orlando Magic", ⟨"19", "ORL", "Southeast"⟩),
   ("Philadelphia 76ers", ⟨"20", "PHI", "Atlantic"⟩),
   ("Phoenix Suns", ⟨"21", "PHX", "Pacific"⟩),
   ("Portland Trail Blazers", ⟨"22", "POR", "Northwest"⟩),
   ("Sacramento Kings", ⟨"23", "SAC", "Pacific"⟩),
   ("San Antonio Spurs", ⟨"24", "SAS", "Southwest"⟩),
   ("Toronto Raptors", ⟨"28", "TOR", "Atlantic"⟩),
   ("Utah Jazz", ⟨"26", "UTA", "Northwest"⟩),
   ("Washington Wizards", ⟨"27", "WAS", "Southeast"⟩)]

/-- `NHL_TEAMS`, in source order. -/
def NHL_TEAMS : List (String × TeamInfo) :=
  [("Anaheim Ducks", ⟨"25", "ANA", "Pacific"⟩),
   ("Arizona Coyotes", ⟨"28", "ARI", "Central"⟩),
   ("Boston Bruins", ⟨"6", "BOS", "Atlantic"⟩),
   ("Buffalo Sabres", ⟨"7", "BUF", "Atlantic"⟩),
   ("Calgary Flames", ⟨"20", "CGY", "Pacific"⟩),
   ("Carolina Hurricanes", ⟨"12", "CAR", "Metropolitan"⟩),
   ("Chicago Blackhawks", ⟨"16", "CHI", "Central"⟩),
   ("Colorado Avalanche", ⟨"21", "COL", "Central"⟩),
   ("Columbus Blue Jackets", ⟨"29", "CBJ", "Metropolitan"⟩),
   ("Dallas Stars", ⟨"25", "DAL", "Central"⟩),
   ("Detroit Red Wings", ⟨"17", "DET", "Atlantic"⟩),
   ("Edmonton Oilers", ⟨"22", "EDM", "Pacific"⟩),
   ("Florida Panthers", ⟨"13", "FLA", "Atlantic"⟩),
   ("Los Angeles Kings", ⟨"26", "LAK", "Pacific"⟩),
   ("Minnesota Wild", ⟨"30", "MIN", "Central"⟩),
   ("Montreal Canadiens", ⟨"8", "MTL", "Atlantic"⟩),
   ("Nashville Predators", ⟨"18", "NSH", "Central"⟩),
   ("New Jersey Devils", ⟨"1", "NJD", "Metropolitan"⟩),
   ("New York Islanders", ⟨"2", "NYI", "Metropolitan"⟩),
   ("New York Rangers", ⟨"3", "NYR", "Metropolitan"⟩),
   ("Ottawa Senators", ⟨"9", "OTT", "Atlantic"⟩),
   ("Philadelphia Flyers", ⟨"4", "PHI", "Metropolitan"⟩),
   ("Pittsburgh Penguins", ⟨"5", "PIT", "Metropolitan"⟩),
   ("San Jose Sharks", ⟨"28", "SJS", "Pacific"⟩),
   ("Seattle Kraken", ⟨"55", "SEA", "Pacific"⟩),
   ("St. Louis Blues", ⟨"19", "STL", "Central"⟩),
   ("Tampa Bay Lightning", ⟨"14", "TBL", "Atlantic"⟩),
   ("Toronto Maple Leafs", ⟨"10", "TOR", "Atlantic"⟩),
   ("Vancouver Canucks", ⟨"23", "VAN", "Pacific"⟩),
   ("Vegas Golden Knights", ⟨"54", "VGK", "Pacific"⟩),
   ("Washington Capitals", ⟨"15", "WSH", "Metropolitan"⟩),
   ("Winnipeg Jets", ⟨"52", "WPG", "Central"⟩)]

/-- The table `find_team_id` scans for a given (lowercased) league, or
none for an unsupported league. -/
def leagueTable (league : String) : Option (List (String × TeamInfo)) :=
  if pyLower league = "nfl" then Option.some NFL_TEAMS
  else if pyLower league = "nba" then Option.some NBA_TEAMS
  else if pyLower league = "nhl" then Option.some NHL_TEAMS
  else Option.none

/-- The `for name, info in teams.items()` loop of `find_team_id`: the
first entry whose lowercased name contains the lowercased query as a
substring, or whose lowercased abbreviation equals it, wins. -/
def findTeamAux (q : String) : List (String × TeamInfo) → Option TeamRecord
  | [] => Option.none
  | (name, info) :: rest =>
      if pyInStr q (pyLower name) = true ∨ pyLower info.abbr = q then
        Option.some ⟨name, info.id, info.abbr, info.division⟩
      else findTeamAux q rest

/-- `find_team_id(team_name, league)`. -/
def find_team_id (team_name league : String) : Option TeamRecord :=
  match leagueTable league with
  | Option.none => Option.none
  | Option.some teams => findTeamAux (pyLower team_name) teams

/-! ## Formatters (`src/mcp/sports_api/formatter.py`)

Python string methods are re-implemented on character lists because the
library versions in core Lean do not reduce in the kernel.  The
`datetime` parsing/formatting and `textwrap.wrap` library calls are
abstracted as function parameters of the formatters. -/

/-- `c * n` repetition as used for the card borders. -/
def repChar (c : Char) (n : Nat) : String :=
  String.mk (List.replicate n c)

/-- A run of `n` spaces. -/
def spaces (n : Nat) : String :=
  repChar ' ' n

/-- Python `s.upper()` (ASCII, as in the data handled here). -/
def pyUpper (s : String) : String :=
  String.mk (s.data.map Char.toUpper)

/-- Python `s.ljust(w)` / format spec `:<w` on a string. -/
def pyLjust (s : String) (w : Nat) : String :=
  s ++ spaces (w - s.data.length)

/-- Python `s.rjust(w)` / format spec `:>w` on a string. -/
def pyRjust (s : String) (w : Nat) : String :=
  spaces (w - s.data.length) ++ s

/-- Python `s.center(w)` (the method): the extra padding character goes
left exactly when width and margin are both odd, as in CPython. -/
def pyCenter (s : String) (w : Nat) : String :=
  let len := s.data.length
  if w ≤ len then s
  else
    let marg := w - len
    let left := marg / 2 + (marg &&& w &&& 1)
    spaces left ++ s ++ spaces (marg - left)

/-- Python format spec `:^w` centering: the extra padding character
goes right. -/
def fmtCenter (s : String) (w : Nat) : String :=
  let len := s.data.length
  if w ≤ len then s
  else
    let marg := w - len
    spaces (marg / 2) ++ s ++ spaces (marg - marg / 2)

/-- Python `str(x)` as used inside f-strings.  Lists and dicts are only
reached on malformed payloads; their exact Python `repr` text is not
reproduced, only that a string results. -/
def pyStrOf : PyVal → String
  | .none => "None"
  | .bool b => if b then "True" else "False"
  | .int n => toString n
  | .str s => s
  | .list _ => "<list>"
  | .dict _ => "<dict>"

/-- Python `sep.join(parts)`: every element must be a string. -/
def pyJoin (sep : String) : List PyVal → Except PErr String
  | [] => .ok ""
  | [v] => do pure (← asStr v)
  | v :: rest => do
      let s ← asStr v
      let t ← pyJoin sep rest
      pure (s ++ sep ++ t)

/-- Python `v[0]`: first element of a list or first character of a
string, `IndexError` when empty, `TypeError` otherwise. -/
def pyIndex0 : PyVal → Except PErr PyVal
  | .list (h :: _) => .ok h
  | .list [] => .error .indexError
  | .str s =>
      match s.data with
      | c :: _ => .ok (.str (String.mk [c]))
      | [] => .error .indexError
  | _ => .error .typeError

/-- Python `v[i]` for a natural index. -/
def pyIndexN (v : PyVal) (i : Nat) : Except PErr PyVal :=
  match v with
  | .list l =>
      match l.get? i with
      | Option.some x => .ok x
      | Option.none => .error .indexError
  | .str s =>
      match s.data.get? i with
      | Option.some c => .ok (.str (String.mk [c]))
      | Option.none => .error .indexError
  | _ => .error .typeError

/-- Python `v[-1]`: last element. -/
def pyIndexLast : PyVal → Except PErr PyVal
  | .list l =>
      match l.getLast? with
      | Option.some x => .ok x
      | Option.none => .error .indexError
  | .str s =>
      match s.data.getLast? with
      | Option.some c => .ok (.str (String.mk [c]))
      | Option.none => .error .indexError
  | _ => .error .typeError

/-- Python `len(v)` for sized values. -/
def pyLen : PyVal → Except PErr Nat
  | .list l => .ok l.length
  | .str s => .ok s.data.length
  | .dict d => .ok d.length
  | _ => .error .typeError

/-- Python `v[:n]` preserving the container type (lists and strings). -/
def pySliceValV (v : PyVal) (n : Int) : Except PErr PyVal :=
  match v with
  | .list l => .ok (.list (pySliceTo l n))
  | .str s => .ok (.str (String.mk (if 0 ≤ n then s.data.take n.toNat else s.data.take (s.data.length - (-n).toNat))))
  | _ => .error .typeError

/-- Python format spec `:w` (bare minimum width): strings are
left-aligned, numbers right-aligned, other values raise
(`object.__format__` rejects a non-empty format spec). -/
def pyFmtW (v : PyVal) (w : Nat) : Except PErr String :=
  match v with
  | .str s => .ok (pyLjust s w)
  | .int n => .ok (pyRjust (toString n) w)
  | .bool b => .ok (pyRjust (if b then "1" else "0") w)
  | _ => .error .typeError

/-- Python format spec `:>w`. -/
def pyFmtWR (v : PyVal) (w : Nat) : Except PErr String :=
  match v with
  | .str s => .ok (pyRjust s w)
  | .int n => .ok (pyRjust (toString n) w)
  | .bool b => .ok (pyRjust (if b then "1" else "0") w)
  | _ => .error .typeError

/-- Python format spec `:^w`. -/
def pyFmtWC (v : PyVal) (w : Nat) : Except PErr String :=
  match v with
  | .str s => .ok (fmtCenter s w)
  | .int n => .ok (fmtCenter (toString n) w)
  | .bool b => .ok (fmtCenter (if b then "1" else "0") w)
  | _ => .error .typeError

/-- `'\n'.join(card)` over the accumulated card lines. -/
def joinLines : List String → String
  | [] => ""
  | [x] => x
  | x :: xs => x ++ "\n" ++ joinLines xs

/-- Python `s.split()` with no separator: split on runs of whitespace,
dropping empty pieces. -/
def splitWsAux (cur : List Char) : List Char → List String
  | [] => if cur.isEmpty then [] else [String.mk cur.reverse]
  | c :: cs =>
      if c = ' ' ∨ c = '\t' ∨ c = '\n' then
        if cur.isEmpty then splitWsAux [] cs
        else String.mk cur.reverse :: splitWsAux [] cs
      else splitWsAux (c :: cur) cs

/-- Python `s.split()` (no argument). -/
def pySplitWs (s : String) : List String :=
  splitWsAux [] s.data

/-- `" ".join(words)`. -/
def joinSpace : List String → String
  | [] => ""
  | [w] => w
  | w :: ws => w ++ " " ++ joinSpace ws

/-- The local `shorten_name` of `format_matchup_card`: names within the
limit are kept; otherwise the last word is preserved when it fits,
re-joining the leading words or eliding them with `'... '`; a name
without several words is truncated with a plain ellipsis. -/
def shortenName (name : String) (max_len : Nat := 24) : String :=
  if name.data.length ≤ max_len then name
  else
    let words := pySplitWs name
    let viaWords :=
      if 1 < words.length then
        let last_word := words.getLastD ""
        if last_word.data.length ≤ max_len - 3 then
          let remaining := max_len - last_word.data.length - 1
          let first_part := joinSpace words.dropLast
          Option.some
            (if first_part.data.length ≤ remaining then name
             else String.mk (first_part.data.take (remaining - 2)) ++ "... " ++ last_word)
        else Option.none
      else Option.none
    match viaWords with
    | Option.some r => r
    | Option.none => String.mk (name.data.take (max_len - 3)) ++ "..."

/-- The `'─' * 64` horizontal rule of the 66-wide cards. -/
def hbar64 : String := repChar '─' 64

/-- `f"{price_str} ({point:+.1f})"`'s point rendering: Python formats a
number with an explicit sign and one decimal; a non-numeric truthy
`point` raises. -/
def fmtPoint : PyVal → Except PErr String
  | .int n => .ok ((if 0 ≤ n then "+" else "-") ++ toString n.natAbs ++ ".0")
  | _ => .error .typeError

/-- `price` rendering of `format_matchup_card`: numeric prices are
truncated to int and get a leading `+` when positive; anything else is
`str(price)`. -/
def priceStr : PyVal → String
  | .int n => if 0 < n then "+" ++ toString n else toString n
  | v => pyStrOf v

/-- The national-broadcast comprehension of `format_matchup_card`:
`[b for b in broadcasts if b.get('type', {}).get('shortName') in ['', 'National']]`. -/
def natFilter : List PyVal → Except PErr (List PyVal)
  | [] => .ok []
  | b :: rest => do
      let t ← pyGetD b "type" (.dict [])
      let sn ← pyGet t "shortName"
      let tail ← natFilter rest
      pure (if sn = .str "" ∨ sn = .str "National" then b :: tail else tail)

/-- The channel-collection loop: for each broadcast entry, a truthy
`names` contributes its first two entries. -/
def collectChannels : List PyVal → Except PErr (List PyVal)
  | [] => .ok []
  | b :: rest => do
      let names ← pyGetD b "names" (.list [])
      let here ←
        if truthy names then do
          let sl ← pySliceValV names 2
          pyIter sl
        else pure []
      let tail ← collectChannels rest
      pure (here ++ tail)

/-- The `for outcome in outcomes[:2]` rendering of one bookmaker's
market in `format_matchup_card`. -/
def outcomesRender : List PyVal → Except PErr String
  | [] => .ok ""
  | outcome :: rest => do
      let nmV ← pyGetD outcome "name" (.str "")
      let nm ← asStr nmV
      let name := shortenName nm 28
      let price ← pyGetD outcome "price" (.str "")
      let point ← pyGetD outcome "point" (.str "")
      let base := priceStr price
      let price_str ←
        if truthy point then do
          let p ← fmtPoint point
          pure (base ++ " (" ++ p ++ ")")
        else pure base
      let tail ← outcomesRender rest
      pure ("│  " ++ pyLjust name 52 ++ pyRjust price_str 8 ++ "  │\n" ++ tail)

/-- The `for bm_idx, bm in enumerate(bookmakers[:3])` loop of
`format_matchup_card`; `nbm` is `len(bookmakers)`. -/
def bmRender (nbm : Nat) : Nat → List PyVal → Except PErr String
  | _, [] => .ok ""
  | bm_idx, bm :: rest => do
      let bmNameV ← pyGetD bm "title" (.str "Bookmaker")
      let markets ← pyGetD bm "markets" (.list [])
      let here ←
        if truthy markets then do
          let market ← pyIndex0 markets
          let mtV ← pyGetD market "key" (.str "h2h")
          let outcomesV ← pyGetD market "outcomes" (.list [])
          if truthy outcomesV then do
            let lead :=
              if bm_idx = 0 then "│" ++ spaces 64 ++ "│\n│" ++ hbar64 ++ "│\n" else ""
            let bm_name := pyStrOf bmNameV
            let headerTxt :=
              if mtV = .str "h2h" then "Moneyline (" ++ bm_name ++ ")"
              else if mtV = .str "spreads" then "Spread (" ++ bm_name ++ ")"
              else "Odds (" ++ bm_name ++ ")"
            let outSl ← pySliceValV outcomesV 2
            let outs ← pyIter outSl
            let body ← outcomesRender outs
            let sep := if bm_idx < min nbm 3 - 1 then "│" ++ spaces 64 ++ "│\n" else ""
            pure (lead ++ "│" ++ pyCenter headerTxt 64 ++ "│\n│" ++ spaces 64 ++ "│\n" ++ body ++ sep)
          else pure ""
        else pure ""
      let tail ← bmRender nbm (bm_idx + 1) rest
      pure (here ++ tail)

/-- `format_matchup_card(game)`.  `parseTime` abstracts the `try` body
`datetime.fromisoformat(ct.replace('Z', '+00:00')).strftime('%a, %b %d @ %I:%M %p')`,
returning `Option.none` when that body raises (the bare `except` then
keeps the raw value). -/
def format_matchup_card (parseTime : String → Option String) (game : PyVal) :
    Except PErr String := do
  let home_team ← pyGetD game "home_team" (.str "Home")
  let away_team ← pyGetD game "away_team" (.str "Away")
  let commence_time ← pyGetD game "commence_time" (.str "")
  let timeVal : PyVal :=
    if truthy commence_time then
      match commence_time with
      | .str s =>
          match parseTime s with
          | Option.some t => .str t
          | Option.none => .str s
      | other => other
    else .str "TBD"
  let home_score ← pyGetD game "home_score" (.str "")
  let away_score ← pyGetD game "away_score" (.str "")
  let awayS ← asStr away_team
  let homeS ← asStr home_team
  let away_short := shortenName awayS 24
  let home_short := shortenName homeS 24
  let card0 :=
    "\n┌" ++ hbar64 ++ "┐\n│" ++ spaces 64 ++ "│\n│" ++ pyCenter "MATCHUP" 64 ++
    "│\n│" ++ spaces 64 ++ "│\n├" ++ hbar64 ++ "┤\n│" ++ spaces 64 ++ "│\n"
  let matchup := away_short ++ "  vs  " ++ home_short
  let card1 := card0 ++ "│" ++ pyCenter matchup 64 ++ "│\n│" ++ spaces 64 ++ "│\n"
  let card2 :=
    if truthy home_score && truthy away_score then
      card1 ++ "│" ++ pyCenter (pyStrOf away_score ++ "  -  " ++ pyStrOf home_score) 64 ++
      "│\n│" ++ spaces 64 ++ "│\n"
    else card1
  let tstr ← asStr timeVal
  let card3 := card2 ++ "│" ++ pyCenter tstr 64 ++ "│\n"
  let broadcasts ← pyGetD game "broadcasts" (.list [])
  let card4 ←
    if truthy broadcasts then do
      let bl ← pyIter broadcasts
      let national ← natFilter bl
      let national2 := if national.isEmpty then bl.take 2 else national
      let channels ← collectChannels (national2.take 2)
      if !channels.isEmpty then do
        let channel_str ← pyJoin ", " (channels.take 3)
        if channel_str.data.length ≤ 58 then
          pure (card3 ++ "│" ++ fmtCenter ("TV: " ++ channel_str) 64 ++ "│\n")
        else pure card3
      else pure card3
    else pure card3
  let weather ← pyGetD game "weather" (.dict [])
  let card5 ←
    if truthy weather then do
      let temp ← pyGet weather "temperature"
      let dv ← pyGetD weather "displayValue" (.str "")
      let conditions ← pyGetD weather "condition" dv
      let wind ← pyGetD weather "wind" (.str "")
      let parts1 : List PyVal := if truthy temp then [.str (pyStrOf temp ++ "°F")] else []
      let parts2 := parts1 ++ (if truthy conditions then [conditions] else [])
      let parts3 := parts2 ++ (if truthy wind then [wind] else [])
      if !parts3.isEmpty then do
        let weather_str ← pyJoin ", " parts3
        if weather_str.data.length ≤ 58 then
          pure (card4 ++ "│" ++ fmtCenter ("Weather: " ++ weather_str) 64 ++ "│\n")
        else pure card4
      else pure card4
    else pure card4
  let bookmakers ← pyGetD game "bookmakers" (.list [])
  let card6 ←
    if truthy bookmakers then do
      let n ← pyLen bookmakers
      let bmsV ← pySliceValV bookmakers 3
      let bms ← pyIter bmsV
      let body ← bmRender n 0 bms
      pure (card5 ++ body)
    else pure card5
  pure (card6 ++ "│" ++ spaces 64 ++ "│\n└" ++ hbar64 ++ "┘")

/-- One row of `format_scoreboard_table`.  `parseTime` abstracts the
`try` body `datetime.fromisoformat(ts.replace('Z', '+00:00')).strftime('%a %m/%d %I:%M %p')`
(`Option.none` when it raises; the `except: pass` keeps the value). -/
def sbRow (parseTime : String → Option String) (game : PyVal) : Except PErr String := do
  let awDflt ← do
    let at1 ← pyGetD game "awayTeam" (.dict [])
    pyGetD at1 "name" (.str "TBD")
  let awayV ← pyGetD game "away_team" awDflt
  let aws ← asStr awayV
  let away := String.mk (aws.data.take 20)
  let hmDflt ← do
    let ht1 ← pyGetD game "homeTeam" (.dict [])
    pyGetD ht1 "name" (.str "TBD")
  let homeV ← pyGetD game "home_team" hmDflt
  let hms ← asStr homeV
  let home := String.mk (hms.data.take 20)
  let asDflt ← do
    let at2 ← pyGetD game "awayTeam" (.dict [])
    pyGetD at2 "score" (.str "-")
  let away_score ← pyGetD game "away_score" asDflt
  let hsDflt ← do
    let ht2 ← pyGetD game "homeTeam" (.dict [])
    pyGetD ht2 "score" (.str "-")
  let home_score ← pyGetD game "home_score" hsDflt
  let score := pyStrOf away_score ++ " - " ++ pyStrOf home_score
  let ct ← pyGetD game "commence_time" (.str "")
  let status ← pyGetD game "status" (.dict [])
  let timeV ←
    match status with
    | .dict _ => do
        let ty ← pyGetD status "type" (.dict [])
        pyGetD ty "detail" ct
    | _ => pure ct
  let hasT ← if truthy timeV then pyContains (.str "T") timeV else pure false
  let timeV2 :=
    if truthy timeV && hasT then
      match timeV with
      | .str s =>
          match parseTime s with
          | Option.some t => PyVal.str t
          | Option.none => PyVal.str s
      | other => other
    else timeV
  let ts ← asStr timeV2
  pure ("│ " ++ pyLjust away 20 ++ " │ " ++ pyLjust home 20 ++ " │ " ++ pyLjust score 15 ++
        " │ " ++ pyLjust (String.mk (ts.data.take 35)) 35 ++ " │\n")

/-- The row loop of `format_scoreboard_table` over `games[:15]`. -/
def sbRows (parseTime : String → Option String) : List PyVal → Except PErr String
  | [] => .ok ""
  | g :: gs => do
      let r ← sbRow parseTime g
      let rest ← sbRows parseTime gs
      pure (r ++ rest)

/-- `format_scoreboard_table(games)`. -/
def format_scoreboard_table (parseTime : String → Option String) (games : List PyVal) :
    Except PErr String :=
  if games.isEmpty then .ok "No games found."
  else do
    let rows ← sbRows parseTime (games.take 15)
    pure ("\n" ++ "┌" ++ repChar '─' 100 ++ "┐\n" ++
          "│ " ++ pyLjust "AWAY TEAM" 20 ++ "│ " ++ pyLjust "HOME TEAM" 20 ++ "│ " ++
          pyLjust "SCORE" 15 ++ "│ " ++ pyLjust "TIME/STATUS" 35 ++ " │\n" ++
          "├" ++ repChar '─' 100 ++ "┤\n" ++ rows ++
          "└" ++ repChar '─' 100 ++ "┘\n")

/-- The `for team in teams` score lines of `format_game_summary`
(only rendered when `len(teams) >= 2`). -/
def teamScoreLines : List PyVal → Except PErr (List String)
  | [] => .ok []
  | team :: rest => do
      let td ← pyGetD team "team" (.dict [])
      let nmV ← pyGetD td "displayName" (.str "")
      let nm ← asStr nmV
      let team_name := pyUpper nm
      let recV ← pyGetD td "record" (.str "")
      let stats ← pyGetD team "statistics" (.list [.dict []])
      let lastStat ← pyIndexLast stats
      let scoreV ← pyGetD lastStat "displayValue" (.str "0")
      let line := pyLjust ("   " ++ team_name ++ " (" ++ pyStrOf recV ++ ")") 42 ++
                  pyRjust (pyStrOf scoreV ++ " ") 22
      let tail ← teamScoreLines rest
      pure (("│" ++ line ++ "│") :: tail)

/-- The period header row: 12 spaces, `Q1..Q4` then `OT` per period,
then `FINAL`. -/
def periodHeader (count : Nat) : String :=
  (List.range count).foldl
    (fun acc i => acc ++ (if i < 4 then "Q" ++ toString (i + 1) ++ "   " else "OT   "))
    "            " ++ "FINAL"

/-- The linescore cells of one team row. -/
def lineScoreCells : List PyVal → Except PErr String
  | [] => .ok ""
  | ls :: rest => do
      let scoreV ← pyGetD ls "displayValue" (.str "0")
      let cell ← pyFmtWR scoreV 5
      let tail ← lineScoreCells rest
      pure (cell ++ tail)

/-- The per-team quarter-score rows of `format_game_summary`. -/
def teamPeriodRows : List PyVal → Except PErr (List String)
  | [] => .ok []
  | team :: rest => do
      let td ← pyGetD team "team" (.dict [])
      let abbrV ← pyGetD td "abbreviation" (.str "TM")
      let abbr ← pyFmtW abbrV 7
      let lsV ← pyGetD team "linescores" (.list [])
      let lsl ← pyIter lsV
      let cells ← lineScoreCells lsl
      let stats ← pyGetD team "statistics" (.list [.dict []])
      let lastStat ← pyIndexLast stats
      let finalV ← pyGetD lastStat "displayValue" (.str "0")
      let finalCell ← pyFmtWR finalV 7
      let line := "   " ++ abbr ++ cells ++ finalCell
      let tail ← teamPeriodRows rest
      pure (("│" ++ pyLjust line 64 ++ "│") :: tail)

/-- The stat keys and labels of the TEAM STATS section, in source
order. -/
def statLabels : List (String × String) :=
  [("fieldGoalPct", "FG%"), ("threePointPct", "3P%"), ("freeThrowPct", "FT%"),
   ("rebounds", "REB"), ("assists", "AST")]

/-- `name in stat_labels` for the collected stat name: string names are
looked up, other hashable scalars are simply absent, unhashable values
raise. -/
def statNameIsLabel : PyVal → Except PErr (Option String)
  | .str s => .ok (if (statLabels.map Prod.fst).contains s then Option.some s else Option.none)
  | .list _ => .error .typeError
  | .dict _ => .error .typeError
  | _ => .ok Option.none

/-- The `for stat in team.get('statistics', [])` collection loop of one
team's stats dict. -/
def collectStats (acc : List (String × PyVal)) : List PyVal → Except PErr (List (String × PyVal))
  | [] => .ok acc
  | stat :: rest => do
      let nameV ← pyGetD stat "name" (.str "")
      let hit ← statNameIsLabel nameV
      let acc' ←
        match hit with
        | Option.some s => do
            let dv ← pyGetD stat "displayValue" (.str "-")
            pure (alistSet acc s dv)
        | Option.none => pure acc
      collectStats acc' rest

/-- The five TEAM STATS rows. -/
def statRows (sd1 sd2 : List (String × PyVal)) : Except PErr (List String) :=
  statLabels.foldr
    (fun (p : String × String) (acc : Except PErr (List String)) => do
      let tail ← acc
      let v1 := (alistLookup sd1 p.1).getD (.str "-")
      let v2 := (alistLookup sd2 p.1).getD (.str "-")
      let c1 ← pyFmtWC v1 21
      let c2 ← pyFmtWC v2 21
      pure (("│" ++ pyLjust ("   " ++ pyLjust p.2 8 ++ " " ++ c1 ++ " " ++ c2) 64 ++ "│") :: tail))
    (.ok [])

/-- The roster lines of one team in the TOP PERFORMERS section. -/
def playerLines : List PyVal → Except PErr (List String)
  | [] => .ok []
  | player :: rest => do
      let ath ← pyGetD player "athlete" (.dict [])
      let nmV ← pyGetD ath "displayName" (.str "")
      let nm ← pyFmtW nmV 20
      let statsV ← pyGetD player "stats" (.list [])
      let stat_str ←
        if truthy statsV then do
          let sl ← pySliceValV statsV 4
          let l ← pyIter sl
          pyJoin ", " l
        else pure ""
      let tail ← playerLines rest
      pure (("│" ++ pyLjust ("   " ++ nm ++ " " ++ stat_str) 64 ++ "│") :: tail)

/-- The per-team TOP PERFORMERS blocks. -/
def performerBlocks : List PyVal → Except PErr (List String)
  | [] => .ok []
  | team :: rest => do
      let td ← pyGetD team "team" (.dict [])
      let nmV ← pyGetD td "displayName" (.str "")
      let nm ← asStr nmV
      let team_name := pyUpper nm
      let playersV ← pyGetD team "players" (.list [])
      let sl ← pySliceValV playersV 3
      let players ← pyIter sl
      let pls ← playerLines players
      let tail ← performerBlocks rest
      pure ((("│   " ++ pyLjust team_name 60 ++ " │") :: pls) ++
            ["│" ++ spaces 64 ++ "│"] ++ tail)

/-- The TV comprehension of the footer:
`[b.get('names', [''])[0] for b in broadcasts[:2]]`. -/
def tvNames : List PyVal → Except PErr (List PyVal)
  | [] => .ok []
  | b :: rest => do
      let names ← pyGetD b "names" (.list [.str ""])
      let first ← pyIndex0 names
      let tail ← tvNames rest
      pure (first :: tail)

/-- `format_game_summary(game_data)`.  `wrap` abstracts
`textwrap.wrap(notes, width - 8)`. -/
def format_game_summary (wrap : String → Nat → List String) (game_data : PyVal) :
    Except PErr String := do
  let hd ← pyGetD game_data "header" (.dict [])
  let comps ← pyGetD hd "competitions" (.list [.dict []])
  let comp0 ← pyIndex0 comps
  let status ← pyGetD comp0 "status" (.dict [])
  let sty ← pyGetD status "type" (.dict [])
  let stV ← pyGetD sty "detail" (.str "Game")
  let status_text ← asStr stV
  let gi ← pyGetD game_data "gameInfo" (.dict [])
  let venueD ← pyGetD gi "venue" (.dict [])
  let venueV ← pyGetD venueD "fullName" (.str "")
  let venueLines ←
    if truthy venueV then do
      let vs ← asStr venueV
      pure ["│" ++ pyCenter ("@ " ++ vs) 64 ++ "│"]
    else pure ([] : List String)
  let card1 : List String :=
    ["┌" ++ hbar64 ++ "┐", "│" ++ pyCenter status_text 64 ++ "│"] ++ venueLines ++
    ["├" ++ hbar64 ++ "┤", "│" ++ spaces 64 ++ "│"]
  let bx ← pyGetD game_data "boxscore" (.dict [])
  let teamsV ← pyGetD bx "teams" (.list [])
  let nTeams ← pyLen teamsV
  let scoreLines ←
    if 2 ≤ nTeams then do
      let tl ← pyIter teamsV
      teamScoreLines tl
    else pure []
  let card2 := card1 ++ scoreLines ++ ["│" ++ spaces 64 ++ "│"]
  let card3 := card2 ++
    ["├" ++ hbar64 ++ "┤", "│" ++ pyCenter "QUARTER-BY-QUARTER" 64 ++ "│",
     "│" ++ spaces 64 ++ "│"]
  let linescoresV ←
    if truthy teamsV then do
      let t0 ← pyIndex0 teamsV
      pyGetD t0 "linescores" (.list [])
    else pure (.list [])
  let period_count ← pyLen linescoresV
  let card4 := card3 ++ ["│" ++ pyLjust (periodHeader period_count) 64 ++ "│"]
  let teamsList ← pyIter teamsV
  let periodRows ← teamPeriodRows teamsList
  let card5 := card4 ++ periodRows ++ ["│" ++ spaces 64 ++ "│"]
  let card6 := card5 ++
    ["├" ++ hbar64 ++ "┤", "│" ++ pyCenter "TEAM STATS" 64 ++ "│", "│" ++ spaces 64 ++ "│"]
  let abbr1 ←
    if 0 < nTeams then do
      let t0 ← pyIndex0 teamsV
      let td ← pyGetD t0 "team" (.dict [])
      let v ← pyGetD td "abbreviation" (.str "TM1")
      pyFmtWC v 21
    else pyFmtWC (.str "TM1") 21
  let abbr2 ←
    if 1 < nTeams then do
      let t1 ← pyIndexN teamsV 1
      let td ← pyGetD t1 "team" (.dict [])
      let v ← pyGetD td "abbreviation" (.str "TM2")
      pyFmtWC v 21
    else pyFmtWC (.str "TM2") 21
  let card7 := card6 ++ ["│" ++ pyLjust ("             " ++ abbr1 ++ " " ++ abbr2) 64 ++ "│"]
  let teams2 := teamsList.take 2
  let sd1 ←
    match teams2.get? 0 with
    | Option.some t => do
        let sv ← pyGetD t "statistics" (.list [])
        let sl ← pyIter sv
        collectStats [] sl
    | Option.none => pure []
  let sd2 ←
    match teams2.get? 1 with
    | Option.some t => do
        let sv ← pyGetD t "statistics" (.list [])
        let sl ← pyIter sv
        collectStats [] sl
    | Option.none => pure []
  let srows ← statRows sd1 sd2
  let card8 := card7 ++ srows ++ ["│" ++ spaces 64 ++ "│"]
  let card9 := card8 ++
    ["├" ++ hbar64 ++ "┤", "│" ++ pyCenter "TOP PERFORMERS" 64 ++ "│", "│" ++ spaces 64 ++ "│"]
  let blocks ← performerBlocks teamsList
  let card10 := card9 ++ blocks
  let art ← pyGetD game_data "article" (.dict [])
  let notesV ← pyGetD art "story" (.str "")
  let notesLines ←
    if truthy notesV then do
      let ns ← asStr notesV
      let wrapped := (wrap ns 58).take 5
      pure (["├" ++ hbar64 ++ "┤", "│" ++ pyCenter "GAME NOTES" 64 ++ "│",
             "│" ++ spaces 64 ++ "│"] ++
            wrapped.map (fun line => "│   " ++ pyLjust line 60 ++ " │") ++
            ["│" ++ spaces 64 ++ "│"])
    else pure []
  let card11 := card10 ++ notesLines ++
    ["├" ++ hbar64 ++ "┤", "│" ++ pyCenter "GAME NOTES" 64 ++ "│", "│" ++ spaces 64 ++ "│"]
  let gi2 ← pyGetD game_data "gameInfo" (.dict [])
  let bc ← pyGetD gi2 "broadcast" (.dict [])
  let bcastV ← pyGetD bc "broadcasters" (.list [])
  let tvLines ←
    if truthy bcastV then do
      let sl ← pySliceValV bcastV 2
      let bl ← pyIter sl
      let names ← tvNames bl
      let tv ← pyJoin ", " names
      pure ["│   TV: " ++ pyLjust tv 56 ++ " │"]
    else pure ([] : List String)
  let gi3 ← pyGetD game_data "gameInfo" (.dict [])
  let attV ← pyGetD gi3 "attendance" (.str "")
  let attLines ←
    if truthy attV then do
      let att ← asStr attV
      pure ["│   Attendance: " ++ pyLjust att 48 ++ " │"]
    else pure ([] : List String)
  let card12 := card11 ++ tvLines ++ attLines ++ ["└" ++ hbar64 ++ "┘"]
  pure (joinLines card12)

/-! ## Statement-level predicates -/

/-- Whether a value is a dict whose `"data"` entry is a list — the
shape `_filter_bookmakers` actually processes. -/
def hasDataList : PyVal → Bool
  | .dict d =>
      match alistLookup d "data" with
      | Option.some (.list _) => true
      | _ => false
  | _ => false

/-- Whether a game record carries a `"bookmakers"` list. -/
def gameBmList : PyVal → Bool
  | .dict gd =>
      match alistLookup gd "bookmakers" with
      | Option.some (.list _) => true
      | _ => false
  | _ => false

/-- `pat` occurs as a contiguous substring of `s`. -/
def OccursIn (pat s : String) : Prop :=
  charsIn pat.data s.data = true

/-! ## Theorems -/

theorem get_next_eq (h : OddsAPIHandler) (hlt : h.current_key_index < h.api_keys.length) :
    h.get_next_api_key = Option.some (h.api_keys.get ⟨h.current_key_index, hlt⟩,
      { h with current_key_index := (h.current_key_index + 1) % h.api_keys.length }) := by
  simp [OddsAPIHandler.get_next_api_key, List.getElem?_eq_getElem hlt, List.get_eq_getElem]

theorem runKeys_chunk (keys : List String) (flt : Option (List String)) (lim : Int) :
    ∀ m i, i + m = keys.length → 1 ≤ m →
      OddsAPIHandler.runKeys ⟨keys, i, flt, lim⟩ m =
        Option.some (keys.drop i, ⟨keys, 0, flt, lim⟩) := by
  intro m
  induction m with
  | zero => omega
  | succ m ih =>
    intro i hlen _
    have hi : i < keys.length := by omega
    rw [OddsAPIHandler.runKeys, get_next_eq ⟨keys, i, flt, lim⟩ hi]
    rcases Nat.eq_zero_or_pos m with h0 | hpos
    · subst h0
      have hmod : (i + 1) % keys.length = 0 := by
        have : i + 1 = keys.length := by omega
        rw [this, Nat.mod_self]
      simp only [hmod, OddsAPIHandler.runKeys]
      have hdrop : keys.drop i = [keys.get ⟨i, hi⟩] := by
        rw [List.drop_eq_getElem_cons hi]
        have : i + 1 = keys.length := by omega
        rw [this, List.drop_length, List.get_eq_getElem]
      rw [hdrop]
    · have hmod : (i + 1) % keys.length = i + 1 := Nat.mod_eq_of_lt (by omega)
      rw [hmod]
      have hrec := ih (i + 1) (by omega) hpos
      simp only [hrec]
      rw [List.drop_eq_getElem_cons hi, List.get_eq_getElem]

theorem runKeys_add (m n : Nat) :
    ∀ h : OddsAPIHandler,
      h.runKeys (m + n) =
        match h.runKeys m with
        | Option.none => Option.none
        | Option.some (ks, h') =>
            match h'.runKeys n with
            | Option.none => Option.none
            | Option.some (ks2, h'') => Option.some (ks ++ ks2, h'') := by
  induction m with
  | zero =>
    intro h
    simp only [Nat.zero_add, OddsAPIHandler.runKeys]
    cases hk : h.runKeys n with
    | none => rfl
    | some p => rfl
  | succ m ih =>
    intro h
    have hstep : m + 1 + n = (m + n) + 1 := by omega
    rw [hstep]
    cases hg : h.get_next_api_key with
    | none => simp [OddsAPIHandler.runKeys, hg]
    | some p =>
      obtain ⟨k, h1⟩ := p
      simp only [OddsAPIHandler.runKeys, hg]
      rw [ih h1]
      cases hq : h1.runKeys m with
      | none => rfl
      | some q =>
        obtain ⟨ks, h2⟩ := q
        cases hr : h2.runKeys n with
        | none => simp [hr]
        | some r => simp [hr]

/-- C1: round-robin key rotation — for a handler constructed with a
nonempty list of `N` keys, `N` consecutive `_get_next_api_key` calls
return exactly the configured keys in list order (each once) and leave
the handler back in its initial state, and the `(N+1)`-th call returns
the first key again. -/
theorem c1_round_robin_rotation (keys : List String) (flt : Option (List String)) (lim : Int)
    (hne : keys ≠ []) :
    (OddsAPIHandler.init (.multi keys) flt lim).runKeys keys.length =
      Option.some (keys, OddsAPIHandler.init (.multi keys) flt lim) ∧
    (OddsAPIHandler.init (.multi keys) flt lim).runKeys (keys.length + 1) =
      Option.some (keys ++ [keys.head hne],
        { OddsAPIHandler.init (.multi keys) flt lim with
            current_key_index := 1 % keys.length }) := by
  have hpos : 0 < keys.length := List.length_pos.mpr hne
  have hinit : OddsAPIHandler.init (.multi keys) flt lim =
      ⟨keys, 0, (OddsAPIHandler.init (.multi keys) flt lim).bookmakers_filter, lim⟩ := by
    simp [OddsAPIHandler.init]
  set F := (OddsAPIHandler.init (.multi keys) flt lim).bookmakers_filter with hF
  have hfull := runKeys_chunk keys F lim keys.length 0 (by omega) (by omega)
  have hone : OddsAPIHandler.runKeys ⟨keys, 0, F, lim⟩ 1 =
      Option.some ([keys.head hne], ⟨keys, 1 % keys.length, F, lim⟩) := by
    rw [OddsAPIHandler.runKeys, get_next_eq ⟨keys, 0, F, lim⟩ hpos]
    simp only [OddsAPIHandler.runKeys]
    have : keys.get ⟨0, hpos⟩ = keys.head hne := by
      cases keys with
      | nil => exact absurd rfl hne
      | cons a l => rfl
    rw [this]
  have hfull' : OddsAPIHandler.runKeys ⟨keys, 0, F, lim⟩ keys.length =
      Option.some (keys, ⟨keys, 0, F, lim⟩) := by
    simpa using hfull
  constructor
  · rw [hinit]
    exact hfull'
  · rw [hinit]
    rw [runKeys_add keys.length 1 ⟨keys, 0, F, lim⟩]
    simp only [hfull', hone]

theorem c1_round_robin_rotation_witness :
    (OddsAPIHandler.init (.multi ["alpha", "beta", "gamma"]) Option.none 5).runKeys 4 =
      Option.some (["alpha", "beta", "gamma", "alpha"],
        ⟨["alpha", "beta", "gamma"], 1, Option.none, 5⟩) := by
  have h := (c1_round_robin_rotation ["alpha", "beta", "gamma"] Option.none 5 (by decide)).2
  simpa [OddsAPIHandler.init] using h

theorem runKeys_invariant :
    ∀ (n : Nat) (h : OddsAPIHandler) (out : List String × OddsAPIHandler),
      h.current_key_index < h.api_keys.length → h.runKeys n = Option.some out →
      out.2.api_keys = h.api_keys ∧ out.2.current_key_index < h.api_keys.length := by
  intro n
  induction n with
  | zero =>
    intro h out hlt hrun
    simp only [OddsAPIHandler.runKeys, Option.some.injEq] at hrun
    rw [← hrun]
    exact ⟨rfl, hlt⟩
  | succ n ih =>
    intro h out hlt hrun
    rw [OddsAPIHandler.runKeys, get_next_eq h hlt] at hrun
    set h1 : OddsAPIHandler :=
      { h with current_key_index := (h.current_key_index + 1) % h.api_keys.length } with hh1
    have hlt1 : h1.current_key_index < h1.api_keys.length := by
      simp only [hh1]
      exact Nat.mod_lt _ (by omega)
    cases hr1 : h1.runKeys n with
    | none => simp [hr1] at hrun
    | some out1 =>
      have := ih h1 out1 hlt1 hr1
      simp only [hr1] at hrun
      obtain ⟨ks1, h2⟩ := out1
      simp only [Option.some.injEq] at hrun
      rw [← hrun]
      exact ⟨this.1, by simpa using this.2⟩

/-- C10: the rotation index starts at 0 (a single string key being
wrapped into a one-element list), and every `_get_next_api_key` call
keeps it inside `[0, N)` while leaving the key list and the bookmaker
configuration untouched; any run of calls from a freshly constructed
handler with nonempty keys therefore also lands inside `[0, N)`. -/
theorem c10_rotation_index_invariant :
    (∀ (s : String) (flt : Option (List String)) (lim : Int),
        (OddsAPIHandler.init (.single s) flt lim).api_keys = [s] ∧
        (OddsAPIHandler.init (.single s) flt lim).current_key_index = 0) ∧
    (∀ (arg : ApiKeyArg) (flt : Option (List String)) (lim : Int),
        (OddsAPIHandler.init arg flt lim).current_key_index = 0) ∧
    (∀ (h : OddsAPIHandler) (k : String) (h' : OddsAPIHandler),
        h.get_next_api_key = Option.some (k, h') →
        h'.api_keys = h.api_keys ∧ h'.bookmakers_filter = h.bookmakers_filter ∧
        h'.bookmakers_limit = h.bookmakers_limit ∧
        h'.current_key_index < h'.api_keys.length) ∧
    (∀ (keys : List String) (flt : Option (List String)) (lim : Int) (n : Nat)
        (out : List String × OddsAPIHandler), keys ≠ [] →
        (OddsAPIHandler.init (.multi keys) flt lim).runKeys n = Option.some out →
        out.2.api_keys = keys ∧ out.2.current_key_index < keys.length) := by
  refine ⟨fun s flt lim => ⟨rfl, rfl⟩, fun arg flt lim => rfl, ?_, ?_⟩
  · intro h k h' hsome
    unfold OddsAPIHandler.get_next_api_key at hsome
    cases hg : h.api_keys.get? h.current_key_index with
    | none => rw [hg] at hsome; exact absurd hsome (by simp)
    | some key =>
      rw [hg] at hsome
      simp only [Option.some.injEq, Prod.mk.injEq] at hsome
      obtain ⟨hk, hh⟩ := hsome
      have hlt : h.current_key_index < h.api_keys.length :=
        List.get?_eq_some.mp hg |>.1
      rw [← hh]
      refine ⟨rfl, rfl, rfl, ?_⟩
      exact Nat.mod_lt _ (by omega)
  · intro keys flt lim n out hne hrun
    have hpos : 0 < keys.length := List.length_pos.mpr hne
    have hlt0 : (OddsAPIHandler.init (.multi keys) flt lim).current_key_index <
        (OddsAPIHandler.init (.multi keys) flt lim).api_keys.length := by
      simpa [OddsAPIHandler.init] using hpos
    have := runKeys_invariant n _ out hlt0 hrun
    simpa [OddsAPIHandler.init] using this

theorem c10_rotation_index_invariant_witness :
    (["a", "b"] : List String) ≠ [] ∧
    (OddsAPIHandler.init (.multi ["a", "b"]) Option.none 5).runKeys 3 =
      Option.some (["a", "b", "a"], ⟨["a", "b"], 1, Option.none, 5⟩) ∧
    ((["a", "b", "a"], (⟨["a", "b"], 1, Option.none, 5⟩ : OddsAPIHandler)).2.api_keys
        = ["a", "b"] ∧
     (["a", "b", "a"], (⟨["a", "b"], 1, Option.none, 5⟩ : OddsAPIHandler)).2.current_key_index
        < (["a", "b"] : List String).length) :=
  ⟨by decide, by decide,
   c10_rotation_index_invariant.2.2.2 ["a", "b"] Option.none 5 3
     (["a", "b", "a"], ⟨["a", "b"], 1, Option.none, 5⟩) (by decide) (by decide)⟩

/-- C8: the `daysFrom` query parameter sent by `get_scores` is
`min(days_from, 3)`: values above 3 produce exactly the request of 3,
values of 3 or below (negative included) pass through unchanged.  Both
copies of the handler (`src/mcp/sports_api` and `src/sports_api`)
build the identical endpoint and parameters. -/
theorem c8_days_from_clamped :
    (∀ (sport : String) (d : Int), (getScoresRequest sport d).2 = [("daysFrom", min d 3)]) ∧
    (∀ (sport : String) (d : Int), 3 < d → getScoresRequest sport d = getScoresRequest sport 3) ∧
    (∀ (sport : String) (d : Int), d ≤ 3 → (getScoresRequest sport d).2 = [("daysFrom", d)]) := by
  refine ⟨fun s d => rfl, fun s d hd => ?_, fun s d hd => ?_⟩
  · simp [getScoresRequest, min_eq_right hd.le]
  · simp [getScoresRequest, min_eq_left hd]

theorem c8_days_from_clamped_witness :
    ((3 : Int) < 7 ∧
      getScoresRequest "basketball_nba" 7 = getScoresRequest "basketball_nba" 3) ∧
    ((-2 : Int) ≤ 3 ∧
      (getScoresRequest "basketball_nba" (-2)).2 = [("daysFrom", (-2 : Int))]) :=
  ⟨⟨by decide, c8_days_from_clamped.2.1 "basketball_nba" 7 (by decide)⟩,
   ⟨by decide, c8_days_from_clamped.2.2 "basketball_nba" (-2) (by decide)⟩⟩

theorem filterStep_sublist (fl : List String) :
    ∀ (bs out : List PyVal), filterStep fl bs = .ok out → out.Sublist bs := by
  intro bs
  induction bs with
  | nil =>
    intro out h
    simp [filterStep] at h
    simp [← h]
  | cons bm rest ih =>
    intro out h
    cases hk : bmKeyLower bm with
    | error e => simp [filterStep, hk, Except.bind, bind] at h
    | ok k =>
      cases ht : filterStep fl rest with
      | error e => simp [filterStep, hk, ht, Except.bind, bind] at h
      | ok tail =>
        simp [filterStep, hk, ht, Except.bind, bind, pure, Except.pure] at h
        by_cases hc : k ∈ fl
        · rw [if_pos hc] at h
          rw [← h]
          exact (ih tail ht).cons₂ bm
        · rw [if_neg hc] at h
          rw [← h]
          exact (ih tail ht).cons bm

theorem filterStep_mem (fl : List String) :
    ∀ (bs out : List PyVal), filterStep fl bs = .ok out →
      ∀ bm ∈ out, ∃ k, bmKeyLower bm = .ok k ∧ k ∈ fl := by
  intro bs
  induction bs with
  | nil =>
    intro out h
    simp [filterStep] at h
    intro b hb
    rw [h] at hb
    simp at hb
  | cons bm rest ih =>
    intro out h
    cases hk : bmKeyLower bm with
    | error e => simp [filterStep, hk, Except.bind, bind] at h
    | ok k =>
      cases ht : filterStep fl rest with
      | error e => simp [filterStep, hk, ht, Except.bind, bind] at h
      | ok tail =>
        simp [filterStep, hk, ht, Except.bind, bind, pure, Except.pure] at h
        by_cases hc : k ∈ fl
        · rw [if_pos hc] at h
          intro b hb
          rw [← h] at hb
          rcases List.mem_cons.mp hb with hb1 | hb2
          · exact ⟨k, hb1 ▸ hk, hc⟩
          · exact ih tail ht b hb2
        · rw [if_neg hc] at h
          intro b hb
          rw [← h] at hb
          exact ih tail ht b hb

/-- C2: with a configured nonempty allow-list and a positive cap, the
bookmaker list produced by the per-game body of `_filter_bookmakers`
is a subsequence of the input, every retained entry's key matches a
configured identifier case-insensitively (both sides lowercased), and
its length is at most the cap. -/
theorem c2_bookmaker_filter_cap (arg : ApiKeyArg) (flt0 : List String) (lim : Int)
    (bs out : List PyVal) (hfl : flt0 ≠ []) (hlim : 0 < lim)
    (hrun : filterGameBms (OddsAPIHandler.init arg (Option.some flt0) lim).bookmakers_filter
        (OddsAPIHandler.init arg (Option.some flt0) lim).bookmakers_limit bs = .ok out) :
    out.Sublist bs ∧
    (∀ bm ∈ out, ∃ k, bmKeyLower bm = .ok k ∧ k ∈ flt0.map pyLower) ∧
    out.length ≤ lim.toNat := by
  have hflt : (OddsAPIHandler.init arg (Option.some flt0) lim).bookmakers_filter =
      Option.some (flt0.map pyLower) := by
    cases flt0 with
    | nil => exact absurd rfl hfl
    | cons a l => simp [OddsAPIHandler.init]
  have hlimv : (OddsAPIHandler.init arg (Option.some flt0) lim).bookmakers_limit = lim := rfl
  rw [hflt, hlimv] at hrun
  have hne' : (flt0.map pyLower).isEmpty = false := by
    cases flt0 with
    | nil => exact absurd rfl hfl
    | cons a l => rfl
  unfold filterGameBms allowPhase at hrun
  simp only [hne', Bool.false_eq_true, if_false] at hrun
  cases hfs : filterStep (flt0.map pyLower) bs with
  | error e => simp [hfs, Except.bind, bind] at hrun
  | ok mid =>
    simp [hfs, Except.bind, bind, pure, Except.pure] at hrun
    have hcap : capPhase lim mid = mid.take lim.toNat := by
      unfold capPhase pySliceTo
      rw [if_pos (by simpa using (by omega : lim ≠ 0)), if_pos (by omega)]
    rw [hcap] at hrun
    refine ⟨?_, ?_, ?_⟩
    · rw [← hrun]
      exact (List.take_sublist _ _).trans (filterStep_sublist _ bs mid hfs)
    · intro bm hbm
      rw [← hrun] at hbm
      exact filterStep_mem _ bs mid hfs bm (List.take_subset _ _ hbm)
    · rw [← hrun]
      exact List.length_take_le _ _

theorem c2_bookmaker_filter_cap_witness :
    (["DraftKings"] : List String) ≠ [] ∧ (0 : Int) < 1 ∧
    filterGameBms
        (OddsAPIHandler.init (.single "k") (Option.some ["DraftKings"]) 1).bookmakers_filter
        (OddsAPIHandler.init (.single "k") (Option.some ["DraftKings"]) 1).bookmakers_limit
        [.dict [("key", .str "DraftKings")], .dict [("key", .str "fanduel")]] =
      .ok [.dict [("key", .str "DraftKings")]] ∧
    (([PyVal.dict [("key", .str "DraftKings")]]).Sublist
        [.dict [("key", .str "DraftKings")], .dict [("key", .str "fanduel")]] ∧
     (∀ bm ∈ [PyVal.dict [("key", .str "DraftKings")]],
        ∃ k, bmKeyLower bm = .ok k ∧ k ∈ (["DraftKings"] : List String).map pyLower) ∧
     ([PyVal.dict [("key", .str "DraftKings")]]).length ≤ (1 : Int).toNat) :=
  ⟨by decide, by decide, rfl,
   c2_bookmaker_filter_cap (.single "k") ["DraftKings"] 1
     [.dict [("key", .str "DraftKings")], .dict [("key", .str "fanduel")]]
     [.dict [("key", .str "DraftKings")]] (by decide) (by decide) rfl⟩

/-- C3 counterexample: with a configured `bookmakers_limit` of 0 the
cap is skipped entirely (`if self.bookmakers_limit:` is falsy), so a
game keeps one bookmaker even though the configured maximum is 0. -/
theorem c3_cap_counterexample :
    (OddsAPIHandler.init (.single "k") Option.none 0).bookmakers_limit = 0 ∧
    filter_bookmakers (OddsAPIHandler.init (.single "k") Option.none 0).bookmakers_filter
        (OddsAPIHandler.init (.single "k") Option.none 0).bookmakers_limit
        (.dict [("data", .list [.dict [("bookmakers",
            .list [.dict [("key", .str "draftkings")]])]])]) =
      .ok (.dict [("data", .list [.dict [("bookmakers",
            .list [.dict [("key", .str "draftkings")]])]])]) ∧
    ¬ (([PyVal.dict [("key", .str "draftkings")]] : List PyVal).length ≤ (0 : Int).toNat) := by
  refine ⟨rfl, rfl, by decide⟩

/-- C3 (amended): for every positive configured maximum, the per-game
bookmaker list is capped to at most that many entries, and the cap is
the truncation of the allow-list phase's output (cap after filter). -/
theorem c3_cap_after_filter (flt : Option (List String)) (lim : Int) (bs out : List PyVal)
    (hlim : 0 < lim) (hrun : filterGameBms flt lim bs = .ok out) :
    out.length ≤ lim.toNat ∧
    ∃ mid, allowPhase flt bs = .ok mid ∧ out = pySliceTo mid lim := by
  unfold filterGameBms at hrun
  cases hap : allowPhase flt bs with
  | error e => simp [hap, Except.bind, bind] at hrun
  | ok mid =>
    simp [hap, Except.bind, bind, pure, Except.pure] at hrun
    have hcap : capPhase lim mid = pySliceTo mid lim := by
      unfold capPhase
      rw [if_pos (by simpa using (by omega : lim ≠ 0))]
    have hsl : pySliceTo mid lim = mid.take lim.toNat := by
      unfold pySliceTo
      rw [if_pos (by omega)]
    refine ⟨?_, mid, rfl, ?_⟩
    · rw [← hrun, hcap, hsl]
      exact List.length_take_le _ _
    · rw [← hrun, hcap]

theorem c3_cap_after_filter_witness :
    (0 : Int) < 2 ∧
    filterGameBms Option.none 2
        [.dict [("key", .str "a")], .dict [("key", .str "b")], .dict [("key", .str "c")]] =
      .ok [.dict [("key", .str "a")], .dict [("key", .str "b")]] ∧
    (([PyVal.dict [("key", .str "a")], PyVal.dict [("key", .str "b")]] : List PyVal).length ≤
        (2 : Int).toNat ∧
     ∃ mid, allowPhase Option.none
         [.dict [("key", .str "a")], .dict [("key", .str "b")], .dict [("key", .str "c")]] =
           .ok mid ∧
       ([PyVal.dict [("key", .str "a")], PyVal.dict [("key", .str "b")]] : List PyVal) =
         pySliceTo mid 2) :=
  ⟨by decide, rfl,
   c3_cap_after_filter Option.none 2
     [.dict [("key", .str "a")], .dict [("key", .str "b")], .dict [("key", .str "c")]]
     [.dict [("key", .str "a")], .dict [("key", .str "b")]] (by decide) rfl⟩

theorem alistSet_keys (k : String) (v : PyVal) :
    ∀ (d : List (String × PyVal)), (alistLookup d k).isSome →
      (alistSet d k v).map Prod.fst = d.map Prod.fst := by
  intro d
  induction d with
  | nil => intro h; simp [alistLookup] at h
  | cons p rest ih =>
    obtain ⟨k', v'⟩ := p
    intro h
    by_cases hk : k' = k
    · simp [alistSet, hk]
    · simp only [alistSet, if_neg hk, List.map_cons]
      simp only [alistLookup, if_neg hk] at h
      rw [ih h]

theorem alistSet_lookup_self (k : String) (v : PyVal) :
    ∀ (d : List (String × PyVal)), alistLookup (alistSet d k v) k = Option.some v := by
  intro d
  induction d with
  | nil => simp [alistSet, alistLookup]
  | cons p rest ih =>
    obtain ⟨k', v'⟩ := p
    by_cases hk : k' = k
    · simp [alistSet, hk, alistLookup]
    · simp [alistSet, hk, alistLookup, ih]

theorem alistSet_lookup_ne (k : String) (v : PyVal) (k' : String) (hne : k' ≠ k) :
    ∀ (d : List (String × PyVal)), alistLookup (alistSet d k v) k' = alistLookup d k' := by
  have hke : (k = k') = False := eq_false (fun h => hne h.symm)
  intro d
  induction d with
  | nil => simp [alistSet, alistLookup, hke]
  | cons p rest ih =>
    obtain ⟨k'', v''⟩ := p
    by_cases hk : k'' = k
    · subst hk
      simp [alistSet, alistLookup, hke]
    · simp [alistSet, hk, alistLookup, ih]

theorem mapGames_ok_forall2 {f : PyVal → Except PErr PyVal} :
    ∀ {l l' : List PyVal}, mapGames f l = .ok l' →
      List.Forall₂ (fun a b => f a = .ok b) l l' := by
  intro l
  induction l with
  | nil =>
    intro l' h
    simp [mapGames] at h
    rw [h]
    exact List.Forall₂.nil
  | cons a as ih =>
    intro l' h
    cases hf : f a with
    | error e => simp [mapGames, hf, Except.bind, bind] at h
    | ok b =>
      cases hm : mapGames f as with
      | error e => simp [mapGames, hf, hm, Except.bind, bind] at h
      | ok bs =>
        simp [mapGames, hf, hm, Except.bind, bind, pure, Except.pure] at h
        rw [← h]
        exact List.Forall₂.cons hf (ih hm)

theorem gameStep_dict_eq (flt : Option (List String)) (lim : Int)
    (gd : List (String × PyVal)) :
    gameStep flt lim (.dict gd) =
      match alistLookup gd "bookmakers" with
      | Option.some (.list bs) =>
          match filterGameBms flt lim bs with
          | .ok bs2 => .ok (.dict (alistSet gd "bookmakers" (.list bs2)))
          | .error e => .error e
      | _ => .ok (.dict gd) := by
  cases hl : alistLookup gd "bookmakers" with
  | none => simp [gameStep, pyContains, hl, Except.bind, bind, pure, Except.pure]
  | some bv =>
    cases bv with
    | list bs =>
      cases hfb : filterGameBms flt lim bs with
      | error e =>
        simp [gameStep, pyContains, pySubscript, pySetItem, hl, hfb,
          Except.bind, bind, pure, Except.pure]
      | ok bs2 =>
        simp [gameStep, pyContains, pySubscript, pySetItem, hl, hfb,
          Except.bind, bind, pure, Except.pure]
    | none =>
      simp [gameStep, pyContains, pySubscript, hl, Except.bind, bind, pure, Except.pure]
    | bool b =>
      simp [gameStep, pyContains, pySubscript, hl, Except.bind, bind, pure, Except.pure]
    | int n =>
      simp [gameStep, pyContains, pySubscript, hl, Except.bind, bind, pure, Except.pure]
    | str s =>
      simp [gameStep, pyContains, pySubscript, hl, Except.bind, bind, pure, Except.pure]
    | dict dd =>
      simp [gameStep, pyContains, pySubscript, hl, Except.bind, bind, pure, Except.pure]

theorem gameStep_frame (flt : Option (List String)) (lim : Int)
    (gd : List (String × PyVal)) (g' : PyVal)
    (h : gameStep flt lim (.dict gd) = .ok g') :
    ∃ gd', g' = .dict gd' ∧ gd'.map Prod.fst = gd.map Prod.fst ∧
      ∀ k, k ≠ "bookmakers" → alistLookup gd' k = alistLookup gd k := by
  rw [gameStep_dict_eq] at h
  cases hl : alistLookup gd "bookmakers" with
  | none =>
    rw [hl] at h
    simp at h
    exact ⟨gd, h.symm, rfl, fun k hk => rfl⟩
  | some bv =>
    rw [hl] at h
    cases bv with
    | list bs =>
      cases hfb : filterGameBms flt lim bs with
      | error e => simp [hfb] at h
      | ok bs2 =>
        simp [hfb] at h
        have hsome : (alistLookup gd "bookmakers").isSome := by rw [hl]; rfl
        exact ⟨alistSet gd "bookmakers" (.list bs2), h.symm,
          alistSet_keys "bookmakers" (.list bs2) gd hsome,
          fun k hk => alistSet_lookup_ne "bookmakers" (.list bs2) k hk gd⟩
    | none => simp at h; exact ⟨gd, h.symm, rfl, fun k hk => rfl⟩
    | bool b => simp at h; exact ⟨gd, h.symm, rfl, fun k hk => rfl⟩
    | int n => simp at h; exact ⟨gd, h.symm, rfl, fun k hk => rfl⟩
    | str s => simp at h; exact ⟨gd, h.symm, rfl, fun k hk => rfl⟩
    | dict dd => simp at h; exact ⟨gd, h.symm, rfl, fun k hk => rfl⟩

theorem gameStep_nondict (flt : Option (List String)) (lim : Int) :
    ∀ (g g' : PyVal), (∀ gd, g ≠ PyVal.dict gd) → gameStep flt lim g = .ok g' → g' = g := by
  intro g g' hnd h
  cases g with
  | dict gd => exact absurd rfl (hnd gd)
  | none => simp [gameStep, pyContains, Except.bind, bind] at h
  | bool b => simp [gameStep, pyContains, Except.bind, bind] at h
  | int n => simp [gameStep, pyContains, Except.bind, bind] at h
  | str s =>
    by_cases hc : pyInStr "bookmakers" s = true
    · simp [gameStep, pyContains, hc, pySubscript, Except.bind, bind] at h
    · simp [gameStep, pyContains, hc, Except.bind, bind, pure, Except.pure] at h
      exact h.symm
  | list l =>
    by_cases hc : PyVal.str "bookmakers" ∈ l
    · simp [gameStep, pyContains, hc, pySubscript, Except.bind, bind] at h
    · simp [gameStep, pyContains, hc, Except.bind, bind, pure, Except.pure] at h
      exact h.symm

/-- C9: `_filter_bookmakers` is a frame-preserving transformation —
any input that is not a dict with a `"data"` list is returned
unchanged; a dict game without a `"bookmakers"` list is returned
unchanged; and on the processed shape the result only replaces the
`"data"` list with an equally long, order-preserving list of games in
which at most the `"bookmakers"` field changed (non-dict games
surviving the pass are returned unchanged), all other top-level
entries being untouched. -/
theorem c9_filter_frame :
    (∀ (flt : Option (List String)) (lim : Int) (v : PyVal),
        hasDataList v = false → filter_bookmakers flt lim v = .ok v) ∧
    (∀ (flt : Option (List String)) (lim : Int) (gd : List (String × PyVal)),
        gameBmList (.dict gd) = false → gameStep flt lim (.dict gd) = .ok (.dict gd)) ∧
    (∀ (flt : Option (List String)) (lim : Int) (d : List (String × PyVal))
        (games : List PyVal) (out : PyVal),
        alistLookup d "data" = Option.some (.list games) →
        filter_bookmakers flt lim (.dict d) = .ok out →
        ∃ games2 d2, out = .dict d2 ∧
          d2.map Prod.fst = d.map Prod.fst ∧
          (∀ k, k ≠ "data" → alistLookup d2 k = alistLookup d k) ∧
          alistLookup d2 "data" = Option.some (.list games2) ∧
          games2.length = games.length ∧
          List.Forall₂ (fun g g2 =>
            (∀ gd, g = PyVal.dict gd → ∃ gd2, g2 = PyVal.dict gd2 ∧
              gd2.map Prod.fst = gd.map Prod.fst ∧
              ∀ k, k ≠ "bookmakers" → alistLookup gd2 k = alistLookup gd k) ∧
            ((∀ gd, g ≠ PyVal.dict gd) → g2 = g)) games games2) := by
  refine ⟨?_, ?_, ?_⟩
  · intro flt lim v hv
    cases v with
    | dict d =>
      unfold filter_bookmakers
      cases hl : alistLookup d "data" with
      | none => simp [hl]
      | some x =>
        simp only [hasDataList, hl] at hv
        cases x with
        | list l => simp at hv
        | none => simp [hl]
        | bool b => simp [hl]
        | int n => simp [hl]
        | str s => simp [hl]
        | dict dd => simp [hl]
    | none => rfl
    | bool b => rfl
    | int n => rfl
    | str s => rfl
    | list l => rfl
  · intro flt lim gd hbm
    rw [gameStep_dict_eq]
    cases hl : alistLookup gd "bookmakers" with
    | none => simp [hl]
    | some bv =>
      simp only [gameBmList, hl] at hbm
      cases bv with
      | list bs => simp at hbm
      | none => simp [hl]
      | bool b => simp [hl]
      | int n => simp [hl]
      | str s => simp [hl]
      | dict dd => simp [hl]
  · intro flt lim d games out hl hout
    unfold filter_bookmakers at hout
    cases hm : mapGames (gameStep flt lim) games with
    | error e => simp [hl, hm, Except.bind, bind, pure, Except.pure] at hout
    | ok games2 =>
      simp [hl, hm, Except.bind, bind, pure, Except.pure] at hout
      have hsome : (alistLookup d "data").isSome := by rw [hl]; rfl
      have hf2 := mapGames_ok_forall2 hm
      refine ⟨games2, alistSet d "data" (.list games2), hout.symm,
        alistSet_keys "data" (.list games2) d hsome,
        fun k hk => alistSet_lookup_ne "data" (.list games2) k hk d,
        alistSet_lookup_self "data" (.list games2) d,
        hf2.length_eq.symm, ?_⟩
      exact List.Forall₂.imp (fun a b hstep =>
        ⟨fun gd hg => gameStep_frame flt lim gd b (hg ▸ hstep),
         fun hnd => gameStep_nondict flt lim a b hnd hstep⟩) hf2

theorem c9_filter_frame_witness :
    alistLookup [("x", PyVal.int 7),
        ("data", PyVal.list [.dict [("id", .str "g"),
          ("bookmakers", .list [.dict [("key", .str "FanDuel")]])]])] "data" =
      Option.some (.list [.dict [("id", .str "g"),
        ("bookmakers", .list [.dict [("key", .str "FanDuel")]])]]) ∧
    filter_bookmakers (Option.some ["draftkings"]) 5
        (.dict [("x", .int 7),
          ("data", .list [.dict [("id", .str "g"),
            ("bookmakers", .list [.dict [("key", .str "FanDuel")]])]])]) =
      .ok (.dict [("x", .int 7),
          ("data", .list [.dict [("id", .str "g"), ("bookmakers", .list [])]])]) ∧
    (∃ games2 d2,
      (PyVal.dict [("x", .int 7),
          ("data", .list [.dict [("id", .str "g"), ("bookmakers", .list [])]])]) =
        .dict d2 ∧
      d2.map Prod.fst =
        ([("x", PyVal.int 7),
          ("data", PyVal.list [.dict [("id", .str "g"),
            ("bookmakers", .list [.dict [("key", .str "FanDuel")]])]])]).map Prod.fst ∧
      (∀ k, k ≠ "data" →
        alistLookup d2 k =
          alistLookup [("x", PyVal.int 7),
            ("data", PyVal.list [.dict [("id", .str "g"),
              ("bookmakers", .list [.dict [("key", .str "FanDuel")]])]])] k) ∧
      alistLookup d2 "data" = Option.some (.list games2) ∧
      games2.length =
        ([PyVal.dict [("id", .str "g"),
          ("bookmakers", .list [.dict [("key", .str "FanDuel")]])]]).length ∧
      List.Forall₂ (fun g g2 =>
        (∀ gd, g = PyVal.dict gd → ∃ gd2, g2 = PyVal.dict gd2 ∧
          gd2.map Prod.fst = gd.map Prod.fst ∧
          ∀ k, k ≠ "bookmakers" → alistLookup gd2 k = alistLookup gd k) ∧
        ((∀ gd, g ≠ PyVal.dict gd) → g2 = g))
        [PyVal.dict [("id", .str "g"),
          ("bookmakers", .list [.dict [("key", .str "FanDuel")]])]] games2) :=
  ⟨rfl, rfl,
   c9_filter_frame.2.2 (Option.some ["draftkings"]) 5
     [("x", .int 7),
      ("data", .list [.dict [("id", .str "g"),
        ("bookmakers", .list [.dict [("key", .str "FanDuel")]])]])]
     [.dict [("id", .str "g"), ("bookmakers", .list [.dict [("key", .str "FanDuel")]])]]
     (.dict [("x", .int 7),
       ("data", .list [.dict [("id", .str "g"), ("bookmakers", .list [])]])])
     rfl rfl⟩

/-- C4 counterexample: a 204 response is inside the 2xx range yet
`_make_request` reports `success=False`, because the code tests
`response.status == 200`, not "2xx". -/
theorem c4_status_counterexample :
    make_request (.response ⟨204, Except.ok (.list []), "", Option.none, Option.none⟩) =
      .dict [("success", .bool false), ("error", .str "API returned status 204"),
             ("details", .str "")] ∧
    (200 ≤ 204 ∧ 204 < 300) :=
  ⟨rfl, by decide⟩

/-- C4 (amended): `_make_request` (both handlers) never raises — every
outcome yields a dict with a boolean `success` entry; a transport
exception, a non-200 status, or a body that fails to decode yields
`success=False` with an error message (and the raw text as details for
the status case); a 200 response with a decodable body yields
`success=True` with the parsed data (and the usage headers for the
odds handler). -/
theorem c4_error_conversion :
    (∀ outcome, ∃ d, make_request outcome = .dict d ∧
        ∃ b, alistLookup d "success" = Option.some (.bool b)) ∧
    (∀ msg, make_request (.raised msg) =
        .dict [("success", .bool false), ("error", .str msg)]) ∧
    (∀ r : HttpResponse, r.status ≠ 200 → make_request (.response r) =
        .dict [("success", .bool false),
               ("error", .str ("API returned status " ++ toString r.status)),
               ("details", .str r.textBody)]) ∧
    (∀ (r : HttpResponse) e, r.status = 200 → r.jsonBody = .error e →
        make_request (.response r) = .dict [("success", .bool false), ("error", .str e)]) ∧
    (∀ (r : HttpResponse) data, r.status = 200 → r.jsonBody = .ok data →
        make_request (.response r) =
          .dict [("success", .bool true), ("data", data),
                 ("usage", .dict [("remaining", optStr r.remaining),
                                  ("used", optStr r.used)])]) ∧
    (∀ outcome, ∃ d, espn_make_request outcome = .dict d ∧
        ∃ b, alistLookup d "success" = Option.some (.bool b)) ∧
    (∀ msg, espn_make_request (.raised msg) =
        .dict [("success", .bool false), ("error", .str msg)]) ∧
    (∀ r : HttpResponse, r.status ≠ 200 → espn_make_request (.response r) =
        .dict [("success", .bool false),
               ("error", .str ("API returned status " ++ toString r.status)),
               ("details", .str r.textBody)]) ∧
    (∀ (r : HttpResponse) e, r.status = 200 → r.jsonBody = .error e →
        espn_make_request (.response r) =
          .dict [("success", .bool false), ("error", .str e)]) ∧
    (∀ (r : HttpResponse) data, r.status = 200 → r.jsonBody = .ok data →
        espn_make_request (.response r) = .dict [("success", .bool true), ("data", data)]) := by
  refine ⟨?_, fun msg => rfl, ?_, ?_, ?_, ?_, fun msg => rfl, ?_, ?_, ?_⟩
  · intro outcome
    cases outcome with
    | raised msg => exact ⟨_, rfl, false, rfl⟩
    | response r =>
      by_cases hs : r.status = 200
      · cases hj : r.jsonBody with
        | ok data =>
          exact ⟨[("success", .bool true), ("data", data),
                  ("usage", .dict [("remaining", optStr r.remaining),
                                   ("used", optStr r.used)])],
                 by simp [make_request, hs, hj], true, rfl⟩
        | error e =>
          exact ⟨[("success", .bool false), ("error", .str e)],
                 by simp [make_request, hs, hj], false, rfl⟩
      · exact ⟨[("success", .bool false),
                ("error", .str ("API returned status " ++ toString r.status)),
                ("details", .str r.textBody)],
               by simp [make_request, hs], false, rfl⟩
  · intro r hs
    simp [make_request, hs]
  · intro r e hs hj
    simp [make_request, hs, hj]
  · intro r data hs hj
    simp [make_request, hs, hj]
  · intro outcome
    cases outcome with
    | raised msg => exact ⟨_, rfl, false, rfl⟩
    | response r =>
      by_cases hs : r.status = 200
      · cases hj : r.jsonBody with
        | ok data =>
          exact ⟨[("success", .bool true), ("data", data)],
                 by simp [espn_make_request, hs, hj], true, rfl⟩
        | error e =>
          exact ⟨[("success", .bool false), ("error", .str e)],
                 by simp [espn_make_request, hs, hj], false, rfl⟩
      · exact ⟨[("success", .bool false),
                ("error", .str ("API returned status " ++ toString r.status)),
                ("details", .str r.textBody)],
               by simp [espn_make_request, hs], false, rfl⟩
  · intro r hs
    simp [espn_make_request, hs]
  · intro r e hs hj
    simp [espn_make_request, hs, hj]
  · intro r data hs hj
    simp [espn_make_request, hs, hj]

theorem c4_error_conversion_witness :
    ((⟨404, Except.ok PyVal.none, "Not found", Option.none, Option.none⟩ :
        HttpResponse).status ≠ 200 ∧
     make_request (.response ⟨404, Except.ok PyVal.none, "Not found",
         Option.none, Option.none⟩) =
       .dict [("success", .bool false), ("error", .str "API returned status 404"),
              ("details", .str "Not found")]) ∧
    ((⟨200, Except.ok (.list []), "", Option.none, Option.none⟩ :
        HttpResponse).status = 200 ∧
     espn_make_request (.response ⟨200, Except.ok (.list []), "",
         Option.none, Option.none⟩) =
       .dict [("success", .bool true), ("data", .list [])]) :=
  ⟨⟨by decide,
    c4_error_conversion.2.2.1 ⟨404, Except.ok PyVal.none, "Not found",
      Option.none, Option.none⟩ (by decide)⟩,
   ⟨rfl,
    c4_error_conversion.2.2.2.2.2.2.2.2.2 ⟨200, Except.ok (.list []), "",
      Option.none, Option.none⟩ (.list []) rfl rfl⟩⟩

theorem searchLoop_all_fail (fetch : String → PyVal) (q : String)
    (hf : ∀ sk, ∃ d, fetch sk = PyVal.dict d ∧
        alistLookup d "success" = Option.some (.bool false)) :
    ∀ sks, searchLoop fetch q sks = .ok [] := by
  intro sks
  induction sks with
  | nil => rfl
  | cons sk rest ih =>
    obtain ⟨d, hd, hs⟩ := hf sk
    simp [searchLoop, hd, pyGet, pyGetD, hs, truthy, Except.bind, bind, pure,
      Except.pure, ih]

/-- C7 (amended): the tool layer forwards the handler's `search_odds`
result unchanged and unretried, but when every underlying `get_odds`
result has `success=False`, `search_odds` still returns
`success=True` with an empty `matching_games` list — the per-sport
failures are swallowed, not propagated. -/
theorem c7_search_error_swallowed (fetch : String → PyVal) (query : String)
    (sport : Option String)
    (hf : ∀ sk, ∃ d, fetch sk = PyVal.dict d ∧
        alistLookup d "success" = Option.some (.bool false)) :
    search_odds fetch query sport =
      .ok (.dict [("success", .bool true), ("query", .str query),
                  ("matching_games", .list []), ("count", .int 0)]) ∧
    tool_search_odds true fetch query sport = search_odds fetch query sport := by
  constructor
  · have hz := searchLoop_all_fail fetch (pyLower query) hf
    unfold search_odds
    cases sport with
    | some s => simp [hz, Except.bind, bind, pure, Except.pure]
    | none => simp [hz, Except.bind, bind, pure, Except.pure]
  · rfl

/-- C7 counterexample: with every `get_odds` result failing, the
result of `search_odds` reports `success=True` (with no matches),
not the failure. -/
theorem c7_search_counterexample :
    pyGet (PyVal.dict [("success", .bool false),
        ("error", .str "API returned status 401")]) "success" = .ok (.bool false) ∧
    search_odds
        (fun _ => PyVal.dict [("success", .bool false),
            ("error", .str "API returned status 401")])
        "lakers" Option.none =
      .ok (.dict [("success", .bool true), ("query", .str "lakers"),
                  ("matching_games", .list []), ("count", .int 0)]) :=
  ⟨rfl, rfl⟩

theorem c7_search_error_swallowed_witness :
    search_odds (fun _ => PyVal.dict [("success", .bool false)]) "celtics"
        (Option.some "basketball_nba") =
      .ok (.dict [("success", .bool true), ("query", .str "celtics"),
                  ("matching_games", .list []), ("count", .int 0)]) ∧
    tool_search_odds true (fun _ => PyVal.dict [("success", .bool false)]) "celtics"
        (Option.some "basketball_nba") =
      search_odds (fun _ => PyVal.dict [("success", .bool false)]) "celtics"
        (Option.some "basketball_nba") :=
  c7_search_error_swallowed (fun _ => PyVal.dict [("success", .bool false)]) "celtics"
    (Option.some "basketball_nba")
    (fun _ => ⟨[("success", .bool false)], rfl, rfl⟩)

theorem nfl_exact_names :
    (NFL_TEAMS.all fun p => find_team_id p.1 "nfl" =
      Option.some ⟨p.1, p.2.id, p.2.abbr, p.2.division⟩) = true := by decide

theorem nba_exact_names :
    (NBA_TEAMS.all fun p => find_team_id p.1 "nba" =
      Option.some ⟨p.1, p.2.id, p.2.abbr, p.2.division⟩) = true := by decide

theorem nhl_exact_names :
    (NHL_TEAMS.all fun p => find_team_id p.1 "nhl" =
      Option.some ⟨p.1, p.2.id, p.2.abbr, p.2.division⟩) = true := by decide

theorem findTeamAux_first_match (ql : String) :
    ∀ l : List (String × TeamInfo), findTeamAux ql l =
      (l.find? (fun p => pyInStr ql (pyLower p.1) || decide (pyLower p.2.abbr = ql))).map
        (fun p => ⟨p.1, p.2.id, p.2.abbr, p.2.division⟩) := by
  intro l
  induction l with
  | nil => rfl
  | cons p rest ih =>
    obtain ⟨name, info⟩ := p
    by_cases hc : pyInStr ql (pyLower name) = true ∨ pyLower info.abbr = ql
    · have hb : (pyInStr ql (pyLower name) || decide (pyLower info.abbr = ql)) = true := by
        rcases hc with h1 | h2
        · simp [h1]
        · simp [h2]
      unfold findTeamAux
      rw [if_pos hc]
      simp [List.find?, hb]
    · have hb : (pyInStr ql (pyLower name) || decide (pyLower info.abbr = ql)) = false := by
        push_neg at hc
        simp [hc.1, hc.2]
      unfold findTeamAux
      rw [if_neg hc]
      simp [List.find?, hb, ih]

/-- C6 counterexample: `"CAR"` is the configured abbreviation of the
Carolina Panthers, yet `find_team_id` returns the Arizona Cardinals,
because the substring test on `"arizona cardinals"` fires first in
table order. -/
theorem c6_lookup_counterexample :
    (("Carolina Panthers", (⟨"29", "CAR", "NFC South"⟩ : TeamInfo)) ∈ NFL_TEAMS) ∧
    find_team_id "CAR" "nfl" =
      Option.some ⟨"Arizona Cardinals", "22", "ARI", "NFC West"⟩ ∧
    find_team_id "CAR" "nfl" ≠
      Option.some ⟨"Carolina Panthers", "29", "CAR", "NFC South"⟩ :=
  ⟨by decide, by decide, by decide⟩

/-- C6 (amended): for every team of a supported league, querying the
exact full name in any letter case returns that team's record; a
partial-substring or abbreviation query returns the record of the
first team in table order whose lowercased name contains the query or
whose lowercased abbreviation equals it, which can be a different
team (as for `"CAR"`). -/
theorem c6_team_lookup (league : String) (table : List (String × TeamInfo))
    (hleague : leagueTable league = Option.some table) :
    (∀ p ∈ table, ∀ q : String, pyLower q = pyLower p.1 →
        find_team_id q league = Option.some ⟨p.1, p.2.id, p.2.abbr, p.2.division⟩) ∧
    (∀ q : String, find_team_id q league =
        (table.find? (fun p => pyInStr (pyLower q) (pyLower p.1) ||
            decide (pyLower p.2.abbr = pyLower q))).map
          (fun p => ⟨p.1, p.2.id, p.2.abbr, p.2.division⟩)) := by
  have hfind : ∀ q : String, find_team_id q league = findTeamAux (pyLower q) table := by
    intro q
    unfold find_team_id
    rw [hleague]
  constructor
  · intro p hp q hq
    rw [hfind q, hq]
    unfold leagueTable at hleague
    by_cases h1 : pyLower league = "nfl"
    · rw [if_pos h1, Option.some.injEq] at hleague
      subst hleague
      have hall := of_decide_eq_true (List.all_eq_true.mp nfl_exact_names p hp)
      exact hall
    · rw [if_neg h1] at hleague
      by_cases h2 : pyLower league = "nba"
      · rw [if_pos h2, Option.some.injEq] at hleague
        subst hleague
        exact of_decide_eq_true (List.all_eq_true.mp nba_exact_names p hp)
      · rw [if_neg h2] at hleague
        by_cases h3 : pyLower league = "nhl"
        · rw [if_pos h3, Option.some.injEq] at hleague
          subst hleague
          exact of_decide_eq_true (List.all_eq_true.mp nhl_exact_names p hp)
        · rw [if_neg h3] at hleague
          exact absurd hleague (by simp)
  · intro q
    rw [hfind q]
    exact findTeamAux_first_match (pyLower q) table

theorem c6_team_lookup_witness :
    leagueTable "NFL" = Option.some NFL_TEAMS ∧
    (("Kansas City Chiefs", (⟨"12", "KC", "AFC West"⟩ : TeamInfo)) ∈ NFL_TEAMS) ∧
    pyLower "KANSAS CITY chiefs" = pyLower "Kansas City Chiefs" ∧
    find_team_id "KANSAS CITY chiefs" "NFL" =
      Option.some ⟨"Kansas City Chiefs", "12", "KC", "AFC West"⟩ :=
  ⟨by decide, by decide, by decide,
   (c6_team_lookup "NFL" NFL_TEAMS (by decide)).1
     ("Kansas City Chiefs", ⟨"12", "KC", "AFC West"⟩) (by decide)
     "KANSAS CITY chiefs" (by decide)⟩

theorem charsIn_nil_needle : ∀ l : List Char, charsIn [] l = true := by
  intro l
  cases l with
  | nil => rfl
  | cons c cs => simp [charsIn, charsPre]

theorem charsPre_append (n : List Char) :
    ∀ (a b : List Char), charsPre n a = true → charsPre n (a ++ b) = true := by
  induction n with
  | nil => intro a b _; rfl
  | cons c cs ih =>
    intro a b h
    cases a with
    | nil => simp [charsPre] at h
    | cons d ds =>
      simp only [charsPre, Bool.and_eq_true] at h
      simp only [List.cons_append, charsPre, Bool.and_eq_true]
      exact ⟨h.1, ih ds b h.2⟩

theorem charsIn_append_left (n : List Char) :
    ∀ (a b : List Char), charsIn n a = true → charsIn n (a ++ b) = true := by
  intro a
  induction a with
  | nil =>
    intro b h
    cases n with
    | nil => exact charsIn_nil_needle b
    | cons c cs => simp [charsIn] at h
  | cons c cs ih =>
    intro b h
    simp only [charsIn, Bool.or_eq_true] at h
    simp only [List.cons_append, charsIn, Bool.or_eq_true]
    rcases h with h1 | h2
    · exact Or.inl (charsPre_append n (c :: cs) b h1)
    · exact Or.inr (ih b h2)

theorem charsIn_append_right (n : List Char) :
    ∀ (a b : List Char), charsIn n b = true → charsIn n (a ++ b) = true := by
  intro a
  induction a with
  | nil => intro b h; simpa using h
  | cons c cs ih =>
    intro b h
    simp only [List.cons_append, charsIn, Bool.or_eq_true]
    exact Or.inr (ih b h)

theorem strData_append (s t : String) : (s ++ t).data = s.data ++ t.data := by
  cases s
  cases t
  rfl

theorem occursIn_append_left (pat s t : String) (h : OccursIn pat s) :
    OccursIn pat (s ++ t) := by
  unfold OccursIn at h ⊢
  rw [strData_append]
  exact charsIn_append_left pat.data s.data t.data h

theorem occursIn_append_right (pat s t : String) (h : OccursIn pat t) :
    OccursIn pat (s ++ t) := by
  unfold OccursIn at h ⊢
  rw [strData_append]
  exact charsIn_append_right pat.data s.data t.data h

theorem occursIn_joinLines (pat : String) :
    ∀ (l : List String) (s : String), s ∈ l → OccursIn pat s → OccursIn pat (joinLines l) := by
  intro l
  induction l with
  | nil => intro s hs _; simp at hs
  | cons x xs ih =>
    intro s hs hocc
    rcases List.mem_cons.mp hs with h1 | h2
    · cases xs with
      | nil => simpa [joinLines, ← h1] using hocc
      | cons y ys =>
        subst h1
        show OccursIn pat (s ++ "\n" ++ joinLines (y :: ys))
        exact occursIn_append_left _ _ _ (occursIn_append_left _ _ _ hocc)
    · cases xs with
      | nil => simp at h2
      | cons y ys =>
        show OccursIn pat (x ++ "\n" ++ joinLines (y :: ys))
        exact occursIn_append_right _ _ _ (ih s h2 hocc)

/-- C5: formatter robustness — on payloads whose optional fields
(scores, time, status, weather, broadcasts, bookmakers, statistics,
linescores, records, players, notes) are absent, `format_matchup_card`,
`format_scoreboard_table` and `format_game_summary` return a string
without raising, substituting the documented placeholders: `TBD` for a
missing time or team, `-` for missing scores and stats, `0` for
missing point totals.  Team names are universally quantified, as are
the abstracted `datetime`/`textwrap` library parameters. -/
theorem c5_formatter_robustness :
    (∀ (pt : String → Option String) (home away : String),
      ∃ s, format_matchup_card pt
          (.dict [("home_team", .str home), ("away_team", .str away)]) = .ok s ∧
        OccursIn "TBD" s) ∧
    (∀ (pt : String → Option String) (home away : String),
      ∃ s, format_scoreboard_table pt
          [.dict [], .dict [("home_team", .str home), ("away_team", .str away)]] = .ok s ∧
        OccursIn "TBD" s ∧ OccursIn "-" s) ∧
    (∀ (wrap : String → Nat → List String) (n1 n2 : String),
      ∃ s, format_game_summary wrap
          (.dict [("boxscore", .dict [("teams", .list
            [.dict [("team", .dict [("displayName", .str n1)])],
             .dict [("team", .dict [("displayName", .str n2)])]])])]) = .ok s ∧
        OccursIn "0" s ∧ OccursIn "-" s) := by
  refine ⟨?_, ?_, ?_⟩
  · intro pt home away
    refine ⟨_, rfl, ?_⟩
    apply occursIn_append_left
    apply occursIn_append_left
    apply occursIn_append_left
    apply occursIn_append_left
    apply occursIn_append_left
    apply occursIn_append_left
    apply occursIn_append_right
    unfold OccursIn
    decide
  · intro pt home away
    refine ⟨_, rfl, ?_, ?_⟩
    · apply occursIn_append_left
      apply occursIn_append_left
      apply occursIn_append_left
      apply occursIn_append_right
      apply occursIn_append_left
      unfold OccursIn
      decide
    · apply occursIn_append_left
      apply occursIn_append_left
      apply occursIn_append_left
      apply occursIn_append_right
      apply occursIn_append_left
      unfold OccursIn
      decide
  · intro wrap n1 n2
    refine ⟨_, rfl, ?_, ?_⟩
    · apply occursIn_joinLines _ _
        ("│" ++ pyLjust ("   " ++ pyLjust "TM" 7 ++ "" ++ pyRjust "0" 7) 64 ++ "│")
      · simp
      · unfold OccursIn
        decide
    · apply occursIn_joinLines _ _
        ("│" ++ pyLjust ("   " ++ pyLjust "FG%" 8 ++ " " ++ fmtCenter "-" 21 ++ " " ++
            fmtCenter "-" 21) 64 ++ "│")
      · simp
      · unfold OccursIn
        decide
